import Mathlib

/-! # Unkey Terraform provider: shallow embedding and verification

Definitions in this file mirror the Go sources of
`TeamEyesoft/terraform-provider-unkey`:
`internal/provider/conversions/{credits,primitives,ratelimit}.go`,
`internal/provider/{key,role,permission}_resource.go`, the api/identity
resource files, `internal/provider/provider.go`, and the model/schema files.

Modelling conventions:
* Terraform framework attribute values (`types.String`, `types.Int64`,
  `types.Bool`, `types.Object`, `types.List`) are modelled by `TFVal`
  (null / unknown / known value); the framework's `Equal` coincides with
  equality of `TFVal`.
* Go pointers are `Option`; a nil-pointer dereference is a `GoPanic`.
* The external `encoding/json` library is modelled by an executable
  canonical JSON serializer and parser over the `Json` type: `Json.Marshal`
  sorts object keys at every level exactly as Go's `json.Marshal` does for
  maps, and the parser accepts the canonical (whitespace-free) output.
* Each resource handler is a pure function of the prior state, the plan,
  and the results of the remote SDK calls it may perform; its `Outcome`
  records the diagnostics added, the state written (if any), and the list
  of SDK calls actually made.
-/

namespace UnkeyTF

/-- A Terraform framework attribute value: null, unknown, or a known value.
Mirrors the three value states of the framework's `basetypes` values. -/
inductive TFVal (α : Type) where
  | null
  | unknown
  | value (v : α)
deriving DecidableEq, Repr

namespace TFVal

variable {α : Type}

/-- Mirrors `IsNull()`. -/
def isNull : TFVal α → Bool
  | .null => true
  | _ => false

/-- Mirrors `IsUnknown()`. -/
def isUnknown : TFVal α → Bool
  | .unknown => true
  | _ => false

/-- True exactly on known values. -/
def isKnown : TFVal α → Bool
  | .value _ => true
  | _ => false

/-- Mirrors `StringValue.ValueString()`: the zero value on null/unknown. -/
def valueString : TFVal String → String
  | .value s => s
  | _ => ""

/-- Mirrors `Int64Value.ValueInt64()`: the zero value on null/unknown. -/
def valueInt64 : TFVal Int → Int
  | .value n => n
  | _ => 0

/-- Mirrors `BoolValue.ValueBool()`: the zero value on null/unknown. -/
def valueBool : TFVal Bool → Bool
  | .value b => b
  | _ => false

/-- Mirrors `ValueStringPointer()`: nil exactly on null. -/
def valueStringPointer : TFVal String → Option String
  | .null => none
  | .unknown => some ""
  | .value s => some s

/-- Mirrors `ValueInt64Pointer()`: nil exactly on null. -/
def valueInt64Pointer : TFVal Int → Option Int
  | .null => none
  | .unknown => some 0
  | .value n => some n

/-- Mirrors `ValueBoolPointer()`: nil exactly on null. -/
def valueBoolPointer : TFVal Bool → Option Bool
  | .null => none
  | .unknown => some false
  | .value b => some b

/-- Mirrors `types.Int64PointerValue`: nil becomes null. -/
def int64PointerValue : Option Int → TFVal Int
  | none => .null
  | some n => .value n

/-- Mirrors `types.StringPointerValue`: nil becomes null. -/
def stringPointerValue : Option String → TFVal String
  | none => .null
  | some s => .value s

/-- Mirrors `types.ListValueFrom` applied to a Go slice that may be nil:
a nil slice reflects to a null list. -/
def listFromGo : Option (List α) → TFVal (List α)
  | none => .null
  | some l => .value l

end TFVal

/-- One entry of a framework `diag.Diagnostics` list; every diagnostic the
provider adds is an error diagnostic (`AddError`). -/
structure Diag where
  summary : String
  detail : String
deriving DecidableEq, Repr

/-- A Go runtime panic reachable from the modelled code. -/
inductive GoPanic where
  | nilDeref
deriving DecidableEq, Repr

/-! ## JSON model (for `encoding/json` on `map[string]any`)

`Json.Marshal` on a Go map serializes with keys sorted bytewise at every
nesting level and no whitespace; `json.Unmarshal` inverts it.  The model
restricts numbers to integers (Go decodes into `float64`; integral values
round-trip identically) and escapes only `"` and `\` (Go additionally
escapes control and HTML characters, which also round-trip). -/

/-- A JSON value as decoded by Go into `any`. -/
inductive Json where
  | str (s : String)
  | num (n : Int)
  | bool (b : Bool)
  | null
  | arr (elems : List Json)
  | obj (fields : List (String × Json))
deriving Repr

/-- Escape one character for a JSON string literal. -/
def escChar (c : Char) : List Char :=
  if c = '"' ∨ c = '\\' then ['\\', c] else [c]

/-- Escape the body of a JSON string literal. -/
def escStr : List Char → List Char
  | [] => []
  | c :: cs => escChar c ++ escStr cs

/-- Decimal digits of a natural number, most significant first. -/
def natChars (n : Nat) : List Char :=
  if n = 0 then ['0'] else ((Nat.digits 10 n).map Nat.digitChar).reverse

/-- Decimal rendering of an integer. -/
def intChars (n : Int) : List Char :=
  if n < 0 then '-' :: natChars n.natAbs else natChars n.natAbs

/-- Key order used by Go's `json.Marshal` on maps (bytewise key sort). -/
def keyLE (a b : String × Json) : Prop := a.1 ≤ b.1

instance : DecidableRel keyLE := fun a b => inferInstanceAs (Decidable (a.1 ≤ b.1))

instance : IsTotal (String × Json) keyLE := ⟨fun a b => le_total a.1 b.1⟩

instance : IsTrans (String × Json) keyLE := ⟨fun _ _ _ h1 h2 => le_trans h1 h2⟩

mutual

/-- Serialize a JSON value (no whitespace, as Go emits). -/
def serJson : Json → List Char
  | .str s => '"' :: escStr s.data ++ ['"']
  | .num n => intChars n
  | .bool true => ['t', 'r', 'u', 'e']
  | .bool false => ['f', 'a', 'l', 's', 'e']
  | .null => ['n', 'u', 'l', 'l']
  | .arr es => '[' :: serElems es ++ [']']
  | .obj fs => '{' :: serFields fs ++ ['}']

/-- Serialize array elements, comma separated. -/
def serElems : List Json → List Char
  | [] => []
  | [e] => serJson e
  | e :: es => serJson e ++ ',' :: serElems es

/-- Serialize object fields, comma separated. -/
def serFields : List (String × Json) → List Char
  | [] => []
  | [(k, v)] => '"' :: escStr k.data ++ '"' :: ':' :: serJson v
  | (k, v) :: fs => ('"' :: escStr k.data ++ '"' :: ':' :: serJson v) ++ ',' :: serFields fs

end

mutual

/-- Canonical form: sort the fields of every object by key, as Go's map
marshalling does at every nesting level. -/
def canon : Json → Json
  | .obj fs => .obj (List.insertionSort keyLE (canonFields fs))
  | .arr es => .arr (canonElems es)
  | .str s => .str s
  | .num n => .num n
  | .bool b => .bool b
  | .null => .null

/-- Canonical form of array elements. -/
def canonElems : List Json → List Json
  | [] => []
  | e :: es => canon e :: canonElems es

/-- Canonical form of object fields (values only; sorting happens in `canon`). -/
def canonFields : List (String × Json) → List (String × Json)
  | [] => []
  | (k, v) :: fs => (k, canon v) :: canonFields fs

end

/-- Value of a list of decimal digit characters, most significant first. -/
def digitsVal (cs : List Char) : Nat :=
  cs.foldl (fun a c => 10 * a + (c.toNat - 48)) 0

/-- Parse a nonempty run of decimal digits. -/
def parseNat (input : List Char) : Option (Nat × List Char) :=
  let ds := input.takeWhile Char.isDigit
  if ds.isEmpty then none
  else some (digitsVal ds, input.dropWhile Char.isDigit)

/-- Parse an optionally negated decimal integer. -/
def parseNumber (input : List Char) : Option (Int × List Char) :=
  if input.head? = some '-' then
    (parseNat input.tail).map (fun p => (-(p.1 : Int), p.2))
  else
    (parseNat input).map (fun p => ((p.1 : Int), p.2))

/-- Parse the body of a string literal after the opening quote, handling
escape sequences and consuming the closing quote. -/
def parseStringBody : List Char → Option (List Char × List Char)
  | [] => none
  | c :: rest =>
    if c = '"' then some ([], rest)
    else if c = '\\' then
      match rest with
      | [] => none
      | c2 :: rest2 => (parseStringBody rest2).map (fun p => (c2 :: p.1, p.2))
    else (parseStringBody rest).map (fun p => (c :: p.1, p.2))

/-- Expect an exact character sequence, returning the remainder. -/
def expectChars : List Char → List Char → Option (List Char)
  | [], input => some input
  | p :: ps, c :: input => if c = p then expectChars ps input else none
  | _ :: _, [] => none

mutual

/-- Parse one JSON value from canonical input (fueled recursion). -/
def parseValue : Nat → List Char → Option (Json × List Char)
  | 0, _ => none
  | fuel + 1, input =>
    match input with
    | [] => none
    | c :: rest =>
      if c.isDigit ∨ c = '-' then
        (parseNumber input).map (fun p => (Json.num p.1, p.2))
      else if c = '"' then
        (parseStringBody rest).map (fun p => (Json.str ⟨p.1⟩, p.2))
      else if c = 't' then
        (expectChars ['r', 'u', 'e'] rest).map (fun r => (Json.bool true, r))
      else if c = 'f' then
        (expectChars ['a', 'l', 's', 'e'] rest).map (fun r => (Json.bool false, r))
      else if c = 'n' then
        (expectChars ['u', 'l', 'l'] rest).map (fun r => (Json.null, r))
      else if c = '[' then
        if rest.head? = some ']' then some (Json.arr [], rest.tail)
        else (parseElems fuel rest).map (fun p => (Json.arr p.1, p.2))
      else if c = '{' then
        if rest.head? = some '}' then some (Json.obj [], rest.tail)
        else (parseFields fuel rest).map (fun p => (Json.obj p.1, p.2))
      else none

/-- Parse a nonempty comma-separated element list, consuming the `]`. -/
def parseElems : Nat → List Char → Option (List Json × List Char)
  | 0, _ => none
  | fuel + 1, input =>
    match parseValue fuel input with
    | none => none
    | some (v, rest) =>
      if rest.head? = some ',' then
        (parseElems fuel rest.tail).map (fun p => (v :: p.1, p.2))
      else if rest.head? = some ']' then
        some ([v], rest.tail)
      else none

/-- Parse a nonempty comma-separated field list, consuming the `}`. -/
def parseFields : Nat → List Char → Option (List (String × Json) × List Char)
  | 0, _ => none
  | fuel + 1, input =>
    match input with
    | '"' :: rest =>
      match parseStringBody rest with
      | none => none
      | some (k, rest1) =>
        if rest1.head? = some ':' then
          match parseValue fuel rest1.tail with
          | none => none
          | some (v, rest2) =>
            if rest2.head? = some ',' then
              (parseFields fuel rest2.tail).map (fun p => ((⟨k⟩, v) :: p.1, p.2))
            else if rest2.head? = some '}' then
              some ([(⟨k⟩, v)], rest2.tail)
            else none
        else none
    | _ => none

end

mutual

/-- Fuel sufficient for `parseValue` on the serialization of a value. -/
def pfuel : Json → Nat
  | .arr es => 1 + pfuelElems es
  | .obj fs => 1 + pfuelFields fs
  | _ => 1

/-- Fuel sufficient for `parseElems` on serialized elements. -/
def pfuelElems : List Json → Nat
  | [] => 1
  | e :: es => 1 + max (pfuel e) (pfuelElems es)

/-- Fuel sufficient for `parseFields` on serialized fields. -/
def pfuelFields : List (String × Json) → Nat
  | [] => 1
  | (_, v) :: fs => 1 + max (pfuel v) (pfuelFields fs)

end

/-- The next character, if any, is not a decimal digit — the shape of
every continuation a serialized number is followed by. -/
def headNotDigit (cs : List Char) : Prop :=
  ∀ c, cs.head? = some c → c.isDigit = false

/-- Model of Go's `json.Marshal` on a `map[string]any` (canonical output:
keys sorted at every level, no whitespace). -/
def goMarshal (m : List (String × Json)) : String :=
  ⟨serJson (canon (Json.obj m))⟩

/-- Model of Go's `json.Unmarshal` into `var m map[string]any`:
`.error ()` is a decoding error, `.ok none` is JSON `null` (nil map),
`.ok (some fs)` is a decoded object. -/
def goUnmarshalMap (s : String) : Except Unit (Option (List (String × Json))) :=
  match parseValue (s.length + 1) s.data with
  | some (Json.obj fs, []) => .ok (some fs)
  | some (Json.null, []) => .ok none
  | _ => .error ()

/-! ## SDK component structs (`models/components`)

Only the fields the provider reads or writes are modelled; Go pointer
fields are `Option`, Go slices that the provider distinguishes from nil
are `Option (List _)` (with `none` for a nil slice). -/

/-- `components.KeyCreditsRefill` (also `UpdateKeyCreditsRefill`). -/
structure KeyCreditsRefill where
  interval : String
  amount : Int
  refillDay : Option Int
deriving DecidableEq, Repr

/-- `components.KeyCreditsData`. -/
structure KeyCreditsData where
  remaining : Option Int
  refill : Option KeyCreditsRefill
deriving DecidableEq, Repr

/-- `components.UpdateKeyCreditsData` (nilable refill). -/
structure UpdateKeyCreditsData where
  remaining : Option Int
  refill : Option KeyCreditsRefill
deriving DecidableEq, Repr

/-- `components.RatelimitRequest`. -/
structure RatelimitRequest where
  name : String
  limit : Int
  duration : Int
  autoApply : Option Bool
deriving DecidableEq, Repr

/-- `components.RatelimitResponse`. -/
structure RatelimitResponse where
  name : String
  limit : Int
  duration : Int
  autoApply : Bool
deriving DecidableEq, Repr

/-! ## Plan-side nested models (`models` package and `key_resource.go`) -/

/-- `keyCreditsRefillModel` / `models.KeyCreditsRefillModel`. -/
structure KeyCreditsRefillModel where
  interval : TFVal String
  amount : TFVal Int
  refillDay : TFVal Int
deriving DecidableEq, Repr

/-- `keyCreditsModel` / `models.KeyCreditsModel`; `refill` is a
`types.Object` and may itself be null or unknown. -/
structure KeyCreditsModel where
  remaining : TFVal Int
  refill : TFVal KeyCreditsRefillModel
deriving DecidableEq, Repr

/-- `rateLimitModel` / `models.RateLimitModel`. -/
structure RateLimitModel where
  name : TFVal String
  limit : TFVal Int
  duration : TFVal Int
  autoApply : TFVal Bool
deriving DecidableEq, Repr

/-- A diagnostic standing for the framework's value-conversion error
produced by `Object.As` on a null or unknown object with default
`ObjectAsOptions`. -/
def objAsNullDiag : Diag :=
  ⟨"Value Conversion Error", "cannot reflect null or unknown object into struct"⟩

/-! ## `conversions/credits.go` -/

/-- `conversions.CreditsToAPI`: plan-side credits object to
`*components.KeyCreditsData` plus diagnostics. -/
def CreditsToAPI : TFVal KeyCreditsModel → Option KeyCreditsData × List Diag
  | .null => (none, [])
  | .unknown => (none, [])
  | .value credits =>
    match credits.refill with
    | .value refill =>
      (some ⟨credits.remaining.valueInt64Pointer,
             some ⟨refill.interval.valueString, refill.amount.valueInt64,
                   refill.refillDay.valueInt64Pointer⟩⟩, [])
    | _ => (some ⟨credits.remaining.valueInt64Pointer, none⟩, [])

/-- `conversions.CreditsToUpdateAPI`: builds the update credits struct
from `CreditsToAPI`'s result by dereferencing `keyCredits.Remaining` and
`keyCredits.Refill` without nil checks, so a nil credits pointer or a nil
refill pointer is a runtime panic. -/
def CreditsToUpdateAPI (creditsObj : TFVal KeyCreditsModel) :
    Except GoPanic (Option UpdateKeyCreditsData × List Diag) :=
  match CreditsToAPI creditsObj with
  | (none, _) => .error .nilDeref
  | (some keyCredits, diags) =>
    match keyCredits.refill with
    | none => .error .nilDeref
    | some refill =>
      .ok (some ⟨keyCredits.remaining,
                 some ⟨refill.interval, refill.amount, refill.refillDay⟩⟩, diags)

/-- `conversions.CreditsFromAPI`: response credits to a plan-side object. -/
def CreditsFromAPI : Option KeyCreditsData → TFVal KeyCreditsModel
  | none => .null
  | some credits =>
    .value ⟨TFVal.int64PointerValue credits.remaining,
            match credits.refill with
            | some refill =>
              .value ⟨.value refill.interval, .value refill.amount,
                      TFVal.int64PointerValue refill.refillDay⟩
            | none => .null⟩

/-! ## `conversions/ratelimit.go` -/

/-- Element conversion inside `conversions.RatelimitsToAPI`. -/
def ratelimitToRequest (rl : RateLimitModel) : RatelimitRequest :=
  ⟨rl.name.valueString, rl.limit.valueInt64, rl.duration.valueInt64,
   some rl.autoApply.valueBool⟩

/-- `conversions.RatelimitsToAPI`: null/unknown plan list yields a nil
slice; otherwise each entry is converted in order. -/
def RatelimitsToAPI : TFVal (List RateLimitModel) →
    Option (List RatelimitRequest) × List Diag
  | .null => (none, [])
  | .unknown => (none, [])
  | .value ratelimits => (some (ratelimits.map ratelimitToRequest), [])

/-- Element conversion inside `conversions.RatelimitsFromAPI`. -/
def ratelimitFromResponse (rl : RatelimitResponse) : RateLimitModel :=
  ⟨.value rl.name, .value rl.limit, .value rl.duration, .value rl.autoApply⟩

/-- `conversions.RatelimitsFromAPI`: an empty or nil response slice
collapses to a null plan-side list; order is preserved otherwise. -/
def RatelimitsFromAPI (ratelimits : List RatelimitResponse) :
    TFVal (List RateLimitModel) × List Diag :=
  if ratelimits.isEmpty then (.null, [])
  else (.value (ratelimits.map ratelimitFromResponse), [])

/-! ## `conversions/primitives.go` (JSON string ↔ map) -/

/-- `conversions.StringToMap`: null/unknown input yields a nil map with no
diagnostics; invalid JSON yields a decoding-error diagnostic. -/
def StringToMap (s : TFVal String) :
    Option (List (String × Json)) × List Diag :=
  match s with
  | .null => (none, [])
  | .unknown => (none, [])
  | .value str =>
    match goUnmarshalMap str with
    | .ok m => (m, [])
    | .error _ => (none, [⟨"Error unmarshaling string to map", "invalid JSON"⟩])

/-- `conversions.MapToString`: an empty (or nil) map serializes to the
null string, never to a textual `\x7b\x7d`. -/
def MapToString (m : List (String × Json)) : TFVal String × List Diag :=
  if m.isEmpty then (.null, [])
  else (.value (goMarshal m), [])

/-! ## Resource state models (`models` package, `key_resource.go`,
`role_resource.go`, `permission_resource.go`) -/

/-- `keyResourceModel` / `models.KeyResourceModel`.  The Go field `Prefix`
is rendered `keyPrefix` here because `prefix` is a reserved word in this
development's environment. -/
structure KeyResourceModel where
  keyId : TFVal String
  key : TFVal String
  apiId : TFVal String
  keyPrefix : TFVal String
  name : TFVal String
  byteLength : TFVal Int
  externalId : TFVal String
  meta : TFVal String
  roles : TFVal (List String)
  permissions : TFVal (List String)
  expires : TFVal Int
  credits : TFVal KeyCreditsModel
  ratelimits : TFVal (List RateLimitModel)
  enabled : TFVal Bool
  recoverable : TFVal Bool
  lastUpdated : TFVal String
  permanentDeletion : TFVal Bool
deriving DecidableEq, Repr

/-- `models.ApiResourceModel`. -/
structure ApiResourceModel where
  apiId : TFVal String
  name : TFVal String
deriving DecidableEq, Repr

/-- `roleResourceModel`. -/
structure RoleResourceModel where
  roleId : TFVal String
  name : TFVal String
  description : TFVal String
deriving DecidableEq, Repr

/-- `permissionResourceModel`. -/
structure PermissionResourceModel where
  permissionId : TFVal String
  name : TFVal String
  slug : TFVal String
  description : TFVal String
deriving DecidableEq, Repr

/-- `models.IdentityResourceModel`. -/
structure IdentityResourceModel where
  identityId : TFVal String
  externalId : TFVal String
  meta : TFVal String
  ratelimits : TFVal (List RateLimitModel)
deriving DecidableEq, Repr

/-! ## SDK response data (only fields the handlers read) -/

/-- The identity sub-object of a get-key response. -/
structure IdentityRef where
  externalId : String
deriving DecidableEq, Repr

/-- Data of `V2KeysCreateKeyResponseBody`. -/
structure KeyCreateData where
  keyId : String
  key : String
deriving DecidableEq, Repr

/-- Data of `V2KeysGetKeyResponseBody`; pointer fields are `Option`,
nilable slices are `Option (List _)`, and `ratelimits` is a plain list
because the handlers only test its length. -/
structure KeyData where
  name : Option String
  enabled : Bool
  expires : Option Int
  permissions : Option (List String)
  roles : Option (List String)
  meta : Option (List (String × Json))
  credits : Option KeyCreditsData
  ratelimits : List RatelimitResponse
  identity : Option IdentityRef
deriving Repr

/-- Data of `V2PermissionsGetRoleResponseBody`. -/
structure RoleData where
  name : String
  description : Option String
deriving DecidableEq, Repr

/-- Data of `V2PermissionsGetPermissionResponseBody`. -/
structure PermissionData where
  name : String
  slug : String
  description : Option String
deriving DecidableEq, Repr

/-- Data of `V2IdentitiesGetIdentityResponseBody`; a nil meta map and an
empty one behave identically in the handlers (`len` checks only). -/
structure IdentityData where
  externalId : String
  meta : List (String × Json)
  ratelimits : List RatelimitResponse
deriving Repr

/-! ## Handler outcomes -/

/-- Tags for the remote SDK calls a handler can make. -/
inductive SDKCall where
  | createKey
  | getKey
  | updateKey
  | deleteKey
  | createApi
  | getApi
  | deleteApi
  | createRole
  | getRole
  | deleteRole
  | createPermission
  | getPermission
  | deletePermission
  | createIdentity
  | getIdentity
  | updateIdentity
  | deleteIdentity
deriving DecidableEq, Repr

/-- What a handler invocation did: the diagnostics it appended, the state
it wrote (`none` means `resp.State.Set` was never reached, leaving the
host's prior state untouched), and the SDK calls it performed in order. -/
structure Outcome (σ : Type) where
  diags : List Diag
  state : Option σ
  calls : List SDKCall
deriving Repr

/-! ## Key resource handlers (`key_resource.go`) -/

/-- `components.V2KeysCreateKeyRequestBody` as the Key `Create` handler
fills it. -/
structure V2KeysCreateKeyRequestBody where
  apiId : String
  keyPrefix : Option String
  name : Option String
  byteLength : Option Int
  externalId : Option String
  expires : Option Int
  enabled : Option Bool
  recoverable : Option Bool
  roles : Option (List String) := none
  permissions : Option (List String) := none
  credits : Option KeyCreditsData := none
  meta : Option (List (String × Json)) := none
deriving Repr

/-- The inline credits conversion of `keyResource.Create`
(key_resource.go:444-466): unlike `CreditsToAPI` it calls
`credits.Refill.As` without a null/unknown guard, so an absent refill
contributes the framework's conversion-error diagnostic while the refill
field itself stays nil. -/
def keyCreateCredits : TFVal KeyCreditsModel → Option KeyCreditsData × List Diag
  | .null => (none, [])
  | .unknown => (none, [])
  | .value credits =>
    match credits.refill with
    | .value refill =>
      (some ⟨credits.remaining.valueInt64Pointer,
             some ⟨refill.interval.valueString, refill.amount.valueInt64,
                   refill.refillDay.valueInt64Pointer⟩⟩, [])
    | _ => (some ⟨credits.remaining.valueInt64Pointer, none⟩, [objAsNullDiag])

/-- Request construction of `keyResource.Create`: `.error` is the
`Invalid JSON in meta` abort; otherwise the request plus the accumulated
(non-aborting) conversion diagnostics. -/
def keyCreateRequest (plan : KeyResourceModel) :
    Except Diag (V2KeysCreateKeyRequestBody × List Diag) :=
  let creditsPair := keyCreateCredits plan.credits
  let base : V2KeysCreateKeyRequestBody :=
    { apiId := plan.apiId.valueString
      keyPrefix := plan.keyPrefix.valueStringPointer
      name := plan.name.valueStringPointer
      byteLength := plan.byteLength.valueInt64Pointer
      externalId := plan.externalId.valueStringPointer
      expires := plan.expires.valueInt64Pointer
      enabled := plan.enabled.valueBoolPointer
      recoverable := plan.recoverable.valueBoolPointer
      roles := match plan.roles with | .value l => some l | _ => none
      permissions := match plan.permissions with | .value l => some l | _ => none
      credits := creditsPair.1 }
  if plan.meta.isNull then .ok (base, creditsPair.2)
  else
    match goUnmarshalMap plan.meta.valueString with
    | .error _ => .error ⟨"Invalid JSON in meta", "invalid JSON"⟩
    | .ok m => .ok ({ base with meta := m }, creditsPair.2)

/-- `keyResource.Create`: builds the request (meta abort possible), makes
the create call, and on success writes id, one-time key and timestamp
into the planned state. -/
def keyCreate (plan : KeyResourceModel) (createRes : Except String KeyCreateData)
    (now : String) : Outcome KeyResourceModel :=
  match keyCreateRequest plan with
  | .error d => ⟨[d], none, []⟩
  | .ok (_, buildDiags) =>
    match createRes with
    | .error e =>
      ⟨buildDiags ++
        [⟨"Error creating API", "Could not create API, unexpected error: " ++ e⟩],
       none, [.createKey]⟩
    | .ok data =>
      ⟨buildDiags,
       some { plan with
                keyId := .value data.keyId
                key := .value data.key
                lastUpdated := .value now },
       [.createKey]⟩

/-- State refresh of `keyResource.Read` after `*data.Name` was
successfully dereferenced; the inline credits and ratelimit conversions
coincide with `CreditsFromAPI` and `RatelimitsFromAPI`. -/
def keyReadRefresh (state : KeyResourceModel) (d : KeyData) (nm : String) :
    KeyResourceModel :=
  { state with
      name := .value nm
      enabled := .value d.enabled
      expires := TFVal.int64PointerValue d.expires
      permissions := TFVal.listFromGo d.permissions
      roles := TFVal.listFromGo d.roles
      meta := match d.meta with | some m => .value (goMarshal m) | none => .null
      credits := CreditsFromAPI d.credits
      ratelimits := (RatelimitsFromAPI d.ratelimits).1
      externalId := match d.identity with
                    | some i => .value i.externalId
                    | none => .null }

/-- `keyResource.Read`: the get-key response's `Name` pointer is
dereferenced without a nil check (`*...GetData().Name`), so a nil name is
a runtime panic; every other optional field is nil-guarded. -/
def keyRead (state : KeyResourceModel) (getRes : Except String KeyData) :
    Except GoPanic (Outcome KeyResourceModel) :=
  match getRes with
  | .error e =>
    .ok ⟨[⟨"Error Reading Unkey Key",
           "Could not read Unkey Key ID " ++ state.keyId.valueString ++ ": " ++ e⟩],
         none, [.getKey]⟩
  | .ok d =>
    match d.name with
    | none => .error .nilDeref
    | some nm => .ok ⟨[], some (keyReadRefresh state d nm), [.getKey]⟩

/-- `components.V2KeysUpdateKeyRequestBody` as the Key `Update` handler
fills it; every settable field starts at its Go zero value (absent). -/
structure V2KeysUpdateKeyRequestBody where
  keyId : String
  name : Option String := none
  enabled : Option Bool := none
  expires : Option Int := none
  meta : Option (List (String × Json)) := none
  roles : Option (List String) := none
  permissions : Option (List String) := none
  credits : Option UpdateKeyCreditsData := none
  ratelimits : Option (List RatelimitRequest) := none
deriving Repr

/-- The inline credits conversion of `keyResource.Update` (guards the
refill object correctly, unlike `CreditsToUpdateAPI`). -/
def keyUpdateCredits (credits : KeyCreditsModel) : UpdateKeyCreditsData :=
  ⟨credits.remaining.valueInt64Pointer,
   match credits.refill with
   | .value refill =>
     some ⟨refill.interval.valueString, refill.amount.valueInt64,
           refill.refillDay.valueInt64Pointer⟩
   | _ => none⟩

/-- The meta handling of `keyResource.Update`: meta is decoded whenever
the planned meta is non-null, and a decoding failure is the
`Invalid JSON in meta` abort. -/
def keyUpdateMetaStep (plan : KeyResourceModel) :
    Except Diag (Option (List (String × Json))) :=
  if plan.meta.isNull then .ok none
  else
    match goUnmarshalMap plan.meta.valueString with
    | .error _ => .error ⟨"Invalid JSON in meta", "invalid JSON"⟩
    | .ok m => .ok m

/-- Request construction of `keyResource.Update`: fields are filled from
the plan under the per-field conditions of the source (equality with the
stored state is the framework's `Equal`). -/
def keyUpdateRequest (state plan : KeyResourceModel) :
    Except Diag V2KeysUpdateKeyRequestBody :=
  match keyUpdateMetaStep plan with
  | .error d => .error d
  | .ok metaF =>
    .ok { keyId := state.keyId.valueString
          name := if plan.name ≠ state.name ∧ ¬plan.name.isNull then
                    plan.name.valueStringPointer
                  else none
          enabled := if plan.enabled ≠ state.enabled ∧ ¬plan.enabled.isNull then
                       plan.enabled.valueBoolPointer
                     else none
          expires := if plan.expires ≠ state.expires then
                       plan.expires.valueInt64Pointer
                     else none
          meta := metaF
          roles := if plan.roles ≠ state.roles then
                     some (match plan.roles with | .value l => l | _ => [])
                   else none
          permissions := if plan.permissions ≠ state.permissions then
                           some (match plan.permissions with | .value l => l | _ => [])
                         else none
          credits := if plan.credits ≠ state.credits then
                       match plan.credits with
                       | .value c => some (keyUpdateCredits c)
                       | _ => none
                     else none
          ratelimits := if plan.ratelimits ≠ state.ratelimits then
                          some (match plan.ratelimits with
                                | .value l => l.map ratelimitToRequest
                                | _ => [])
                        else none }

/-- Post-update write-back of `keyResource.Update`: every re-read field is
assigned into the planned state that becomes the new state; the one-time
`key` attribute and `external_id` are not touched here. -/
def keyUpdateWriteBack (plan : KeyResourceModel) (d : KeyData) (now : String) :
    KeyResourceModel :=
  { plan with
      name := TFVal.stringPointerValue d.name
      enabled := .value d.enabled
      expires := TFVal.int64PointerValue d.expires
      permissions := TFVal.listFromGo d.permissions
      roles := TFVal.listFromGo d.roles
      meta := match d.meta with | some m => .value (goMarshal m) | none => .null
      credits := CreditsFromAPI d.credits
      ratelimits := (RatelimitsFromAPI d.ratelimits).1
      lastUpdated := .value now }

/-- `keyResource.Update`: build the request, call update, re-read via
get-key, and write the refreshed plan as state. -/
def keyUpdate (state plan : KeyResourceModel) (updateRes : Except String Unit)
    (getRes : Except String KeyData) (now : String) : Outcome KeyResourceModel :=
  match keyUpdateRequest state plan with
  | .error d => ⟨[d], none, []⟩
  | .ok _ =>
    match updateRes with
    | .error e =>
      ⟨[⟨"Error updating key",
         "Could not update key " ++ state.keyId.valueString ++ ": " ++ e⟩],
       none, [.updateKey]⟩
    | .ok _ =>
      match getRes with
      | .error e =>
        ⟨[⟨"Error reading updated key",
           "Could not read key after update " ++ state.keyId.valueString ++ ": " ++ e⟩],
         none, [.updateKey, .getKey]⟩
      | .ok d =>
        ⟨[], some (keyUpdateWriteBack plan d now), [.updateKey, .getKey]⟩

/-- `components.V2KeysDeleteKeyRequestBody`. -/
structure V2KeysDeleteKeyRequestBody where
  keyId : String
  permanent : Option Bool
deriving DecidableEq, Repr

/-- Request of `keyResource.Delete`: always forwards the (defaulted)
permanent-deletion flag. -/
def keyDeleteRequest (state : KeyResourceModel) : V2KeysDeleteKeyRequestBody :=
  ⟨state.keyId.valueString, some state.permanentDeletion.valueBool⟩

/-- `keyResource.Delete`. -/
def keyDelete (_state : KeyResourceModel) (deleteRes : Except String Unit) :
    Outcome KeyResourceModel :=
  match deleteRes with
  | .error e =>
    ⟨[⟨"Error Deleting Unkey Key", "Could not delete Key, unexpected error: " ++ e⟩],
     none, [.deleteKey]⟩
  | .ok _ => ⟨[], none, [.deleteKey]⟩

/-! ## API resource handlers (api resource file) -/

/-- `apiResource.Create`: the create call returns the new `APIID`. -/
def apiCreate (plan : ApiResourceModel) (createRes : Except String String) :
    Outcome ApiResourceModel :=
  match createRes with
  | .error e =>
    ⟨[⟨"Error creating API", "Could not create API, unexpected error: " ++ e⟩],
     none, [.createApi]⟩
  | .ok apiId =>
    ⟨[], some { plan with apiId := .value apiId }, [.createApi]⟩

/-- `apiResource.Read`: the get call returns the remote name. -/
def apiRead (state : ApiResourceModel) (getRes : Except String String) :
    Outcome ApiResourceModel :=
  match getRes with
  | .error e =>
    ⟨[⟨"Error Reading Unkey API",
       "Could not read Unkey API ID " ++ state.apiId.valueString ++ ": " ++ e⟩],
     none, [.getApi]⟩
  | .ok nm => ⟨[], some { state with name := .value nm }, [.getApi]⟩

/-- `apiResource.Update`: an empty body — no call, no diagnostic, no state
write. -/
def apiUpdate : Outcome ApiResourceModel := ⟨[], none, []⟩

/-- `apiResource.Delete`. -/
def apiDelete (_state : ApiResourceModel) (deleteRes : Except String Unit) :
    Outcome ApiResourceModel :=
  match deleteRes with
  | .error e =>
    ⟨[⟨"Error Deleting Unkey API", "Could not delete API, unexpected error: " ++ e⟩],
     none, [.deleteApi]⟩
  | .ok _ => ⟨[], none, [.deleteApi]⟩

/-! ## Role resource handlers (`role_resource.go`) -/

/-- `roleResource.Create`. -/
def roleCreate (plan : RoleResourceModel) (createRes : Except String String) :
    Outcome RoleResourceModel :=
  match createRes with
  | .error e =>
    ⟨[⟨"Error creating Role", "Could not create Role, unexpected error: " ++ e⟩],
     none, [.createRole]⟩
  | .ok roleId =>
    ⟨[], some { plan with roleId := .value roleId }, [.createRole]⟩

/-- `roleResource.Read`. -/
def roleRead (state : RoleResourceModel) (getRes : Except String RoleData) :
    Outcome RoleResourceModel :=
  match getRes with
  | .error e =>
    ⟨[⟨"Error Reading Unkey Role",
       "Could not read Unkey Role ID " ++ state.roleId.valueString ++ ": " ++ e⟩],
     none, [.getRole]⟩
  | .ok d =>
    ⟨[], some { state with
                  name := .value d.name
                  description := TFVal.stringPointerValue d.description },
     [.getRole]⟩

/-- `roleResource.Update`: a bare `return` — no call, no diagnostic, no
state write. -/
def roleUpdate : Outcome RoleResourceModel := ⟨[], none, []⟩

/-- `roleResource.Delete`. -/
def roleDelete (_state : RoleResourceModel) (deleteRes : Except String Unit) :
    Outcome RoleResourceModel :=
  match deleteRes with
  | .error e =>
    ⟨[⟨"Error Deleting Unkey Role", "Could not delete Role, unexpected error: " ++ e⟩],
     none, [.deleteRole]⟩
  | .ok _ => ⟨[], none, [.deleteRole]⟩

/-! ## Permission resource handlers (`permission_resource.go`) -/

/-- `permissionResource.Create`. -/
def permissionCreate (plan : PermissionResourceModel)
    (createRes : Except String String) : Outcome PermissionResourceModel :=
  match createRes with
  | .error e =>
    ⟨[⟨"Error creating Permission",
       "Could not create Permission, unexpected error: " ++ e⟩],
     none, [.createPermission]⟩
  | .ok permissionId =>
    ⟨[], some { plan with permissionId := .value permissionId }, [.createPermission]⟩

/-- `permissionResource.Read`. -/
def permissionRead (state : PermissionResourceModel)
    (getRes : Except String PermissionData) : Outcome PermissionResourceModel :=
  match getRes with
  | .error e =>
    ⟨[⟨"Error Reading Unkey Permission",
       "Could not read Unkey Permission ID "
         ++ state.permissionId.valueString ++ ": " ++ e⟩],
     none, [.getPermission]⟩
  | .ok d =>
    ⟨[], some { state with
                  name := .value d.name
                  slug := .value d.slug
                  description := TFVal.stringPointerValue d.description },
     [.getPermission]⟩

/-- `permissionResource.Update`: an empty body — no call, no diagnostic,
no state write. -/
def permissionUpdate : Outcome PermissionResourceModel := ⟨[], none, []⟩

/-- `permissionResource.Delete`. -/
def permissionDelete (_state : PermissionResourceModel)
    (deleteRes : Except String Unit) : Outcome PermissionResourceModel :=
  match deleteRes with
  | .error e =>
    ⟨[⟨"Error Deleting Unkey Permission",
       "Could not delete Permission, unexpected error: " ++ e⟩],
     none, [.deletePermission]⟩
  | .ok _ => ⟨[], none, [.deletePermission]⟩

/-! ## Identity resource handlers (identity resource file) -/

/-- `components.V2IdentitiesCreateIdentityRequestBody`. -/
structure V2IdentitiesCreateIdentityRequestBody where
  externalId : String
  meta : Option (List (String × Json))
  ratelimits : Option (List RatelimitRequest)
deriving Repr

/-- Request construction of `identityResource.Create`: meta and
ratelimits come straight from the plan through the shared converters;
conversion diagnostics are accumulated but do not stop the handler. -/
def identityCreateRequest (plan : IdentityResourceModel) :
    V2IdentitiesCreateIdentityRequestBody × List Diag :=
  let metaPair := StringToMap plan.meta
  let rlPair := RatelimitsToAPI plan.ratelimits
  (⟨plan.externalId.valueString, metaPair.1, rlPair.1⟩, metaPair.2 ++ rlPair.2)

/-- `identityResource.Create`: note the source does not abort on
conversion diagnostics before calling the SDK. -/
def identityCreate (plan : IdentityResourceModel)
    (createRes : Except String String) : Outcome IdentityResourceModel :=
  let buildDiags := (identityCreateRequest plan).2
  match createRes with
  | .error e =>
    ⟨buildDiags ++
      [⟨"Error creating API", "Could not create API, unexpected error: " ++ e⟩],
     none, [.createIdentity]⟩
  | .ok identityId =>
    ⟨buildDiags, some { plan with identityId := .value identityId },
     [.createIdentity]⟩

/-- `identityResource.Read`: overwrites external id, meta and ratelimits
from the response via the shared converters. -/
def identityRead (state : IdentityResourceModel)
    (getRes : Except String IdentityData) : Outcome IdentityResourceModel :=
  match getRes with
  | .error e =>
    ⟨[⟨"Error Reading Unkey Identity",
       "Could not read Unkey Identity ID "
         ++ state.identityId.valueString ++ ": " ++ e⟩],
     none, [.getIdentity]⟩
  | .ok d =>
    ⟨[], some { state with
                  externalId := .value d.externalId
                  meta := (MapToString d.meta).1
                  ratelimits := (RatelimitsFromAPI d.ratelimits).1 },
     [.getIdentity]⟩

/-- `components.V2IdentitiesUpdateIdentityRequestBody`. -/
structure V2IdentitiesUpdateIdentityRequestBody where
  identity : String
  meta : Option (List (String × Json))
  ratelimits : Option (List RatelimitRequest)
deriving Repr

/-- Request construction of `identityResource.Update`: meta and
ratelimits are converted from the plan alone — the stored state is not
consulted for any field. -/
def identityUpdateRequest (state plan : IdentityResourceModel) :
    V2IdentitiesUpdateIdentityRequestBody × List Diag :=
  let metaPair := StringToMap plan.meta
  let rlPair := RatelimitsToAPI plan.ratelimits
  (⟨state.identityId.valueString, metaPair.1, rlPair.1⟩, metaPair.2 ++ rlPair.2)

/-- `identityResource.Update`: aborts on conversion diagnostics, calls
update then get; the re-read external id is written into the returned
plan, while the re-read meta and ratelimits are assigned to the local
prior-state variable and discarded (the handler sets state from `plan`). -/
def identityUpdate (state plan : IdentityResourceModel)
    (updateRes : Except String Unit) (getRes : Except String IdentityData) :
    Outcome IdentityResourceModel :=
  if ((identityUpdateRequest state plan).2).isEmpty = false then
    ⟨(identityUpdateRequest state plan).2, none, []⟩
  else
    match updateRes with
    | .error e =>
      ⟨[⟨"Error updating identity",
         "Could not update identity " ++ state.identityId.valueString ++ ": " ++ e⟩],
       none, [.updateIdentity]⟩
    | .ok _ =>
      match getRes with
      | .error e =>
        ⟨[⟨"Error reading updated identity",
           "Could not read identity after update "
             ++ state.identityId.valueString ++ ": " ++ e⟩],
         none, [.updateIdentity, .getIdentity]⟩
      | .ok d =>
        ⟨[], some { plan with externalId := .value d.externalId },
         [.updateIdentity, .getIdentity]⟩

/-- `identityResource.Delete`. -/
def identityDelete (_state : IdentityResourceModel)
    (deleteRes : Except String Unit) : Outcome IdentityResourceModel :=
  match deleteRes with
  | .error e =>
    ⟨[⟨"Error Deleting Unkey Identity",
       "Could not delete Identity, unexpected error: " ++ e⟩],
     none, [.deleteIdentity]⟩
  | .ok _ => ⟨[], none, [.deleteIdentity]⟩

/-! ## Provider root (`provider.go`) and schemas -/

/-- The five resource implementations present in the repository. -/
inductive ResourceKind where
  | api
  | key
  | role
  | permission
  | identity
deriving DecidableEq, Repr

/-- `unkeyProvider.Resources` (provider.go:142-146): the registry returned
to the host contains only the API resource constructor. -/
def providerResources : List ResourceKind := [.api]

/-- The plan modifiers used by the schemas in this repository. -/
inductive PlanModifier where
  | useStateForUnknown
  | requiresReplace
deriving DecidableEq, Repr

/-- One attribute of a resource schema: its configuration flags and plan
modifiers (validators and descriptions are not needed by the claims). -/
structure SchemaAttr where
  name : String
  computed : Bool
  required : Bool
  optional : Bool
  planModifiers : List PlanModifier
deriving DecidableEq, Repr

/-- An attribute the practitioner can set in configuration. -/
def SchemaAttr.userSettable (a : SchemaAttr) : Bool :=
  a.required || a.optional

/-- `schemas.ApiSchema`: `id` is computed; `name` is required and carries
no plan modifiers. -/
def ApiSchemaAttrs : List SchemaAttr :=
  [⟨"id", true, false, false, [.useStateForUnknown]⟩,
   ⟨"name", false, true, false, []⟩]

/-- `roleResource.Schema` (role_resource.go:49-91): `name` and
`description` carry no plan modifiers. -/
def roleResourceSchemaAttrs : List SchemaAttr :=
  [⟨"id", true, false, false, [.useStateForUnknown]⟩,
   ⟨"name", false, true, false, []⟩,
   ⟨"description", false, false, true, []⟩]

/-- `permissionResource.Schema` (permission_resource.go:51-121): `name`,
`slug` and `description` all carry `RequiresReplace`. -/
def permissionResourceSchemaAttrs : List SchemaAttr :=
  [⟨"id", true, false, false, [.useStateForUnknown]⟩,
   ⟨"name", false, true, false, [.requiresReplace]⟩,
   ⟨"slug", false, true, false, [.requiresReplace]⟩,
   ⟨"description", false, false, true, [.requiresReplace]⟩]

/-! ## Concrete base points used by witnesses -/

/-- A key state/plan with every attribute null. -/
def emptyKeyModel : KeyResourceModel :=
  ⟨.null, .null, .null, .null, .null, .null, .null, .null, .null, .null,
   .null, .null, .null, .null, .null, .null, .null⟩

/-- A get-key response with name present and every optional part absent. -/
def dummyKeyData : KeyData :=
  ⟨some "k", true, none, none, none, none, none, [], none⟩

/-- An identity state/plan with every attribute null. -/
def emptyIdentityModel : IdentityResourceModel := ⟨.null, .null, .null, .null⟩

/-- The remote API echoing a requested rate limit back in a response. -/
def ratelimitEcho (r : RatelimitRequest) : RatelimitResponse :=
  ⟨r.name, r.limit, r.duration, r.autoApply.getD false⟩

/-! ## Small helper lemmas -/

theorem isSome_valueStringPointer (t : TFVal String) :
    (t.valueStringPointer).isSome = !t.isNull := by
  cases t <;> rfl

theorem isSome_valueInt64Pointer (t : TFVal Int) :
    (t.valueInt64Pointer).isSome = !t.isNull := by
  cases t <;> rfl

theorem isSome_valueBoolPointer (t : TFVal Bool) :
    (t.valueBoolPointer).isSome = !t.isNull := by
  cases t <;> rfl

/-! ## Claim C1 -/

/-- C1: the claim fails on the code.  On a credits object whose refill is
absent, `CreditsToUpdateAPI` dereferences the nil refill pointer (nil
credits pointer when the whole object is null/unknown) and panics instead
of producing a refill-free request; the Key Create handler's inline
conversion does leave the refill out but appends the framework's
conversion-error diagnostic from calling `As` on the null refill object,
so it does not complete without failure either. -/
theorem C1_creditsToUpdate_absent_refill_panics :
    CreditsToUpdateAPI (.value ⟨.value 5, .null⟩) = .error .nilDeref ∧
    CreditsToUpdateAPI .null = .error .nilDeref ∧
    (keyCreateCredits (.value ⟨.value 5, .null⟩)).1 = some ⟨some 5, none⟩ ∧
    (keyCreateCredits (.value ⟨.value 5, .null⟩)).2 = [objAsNullDiag] :=
  ⟨rfl, rfl, rfl, rfl⟩

/-! ## Claim C2 -/

/-- C2: the claim fails on the code.  The provider root's registry
contains only the API resource constructor; the Key, Role, Permission and
Identity constructors exist but are not registered. -/
theorem C2_registry_contains_only_api :
    providerResources = [.api] ∧
    ResourceKind.key ∉ providerResources ∧
    ResourceKind.role ∉ providerResources ∧
    ResourceKind.permission ∉ providerResources ∧
    ResourceKind.identity ∉ providerResources := by
  decide

/-! ## Claim C4 -/

/-- C4 counterexample: it is not the case that every user-settable
attribute of the API, Role and Permission schemas carries a
requires-replacement plan modifier — the API schema's `name` (and the
role schema's `name`/`description`) carry none. -/
theorem C4_counterexample_api_name_no_requires_replace :
    ¬ (∀ a ∈ ApiSchemaAttrs ++ roleResourceSchemaAttrs ++
          permissionResourceSchemaAttrs,
        a.userSettable = true → PlanModifier.requiresReplace ∈ a.planModifiers) := by
  decide

/-- C4 amended: Permission's user-settable attributes all carry
`RequiresReplace`; the API schema's and the role resource schema's
user-settable attributes carry no plan modifier at all; and the Update
handlers of all three resources do nothing — no SDK call, no diagnostic,
no state write. -/
theorem C4_amended_schemas_and_noop_updates :
    (permissionResourceSchemaAttrs.all fun a =>
       !a.userSettable || a.planModifiers.contains .requiresReplace) = true ∧
    ((ApiSchemaAttrs ++ roleResourceSchemaAttrs).all fun a =>
       !a.userSettable || a.planModifiers.isEmpty) = true ∧
    apiUpdate.calls = [] ∧ apiUpdate.diags = [] ∧ apiUpdate.state = none ∧
    roleUpdate.calls = [] ∧ roleUpdate.diags = [] ∧ roleUpdate.state = none ∧
    permissionUpdate.calls = [] ∧ permissionUpdate.diags = [] ∧
    permissionUpdate.state = none := by
  decide

/-! ## Claim C5 -/

/-- C5: the plaintext `key` attribute is written exactly once.  Whenever
Create writes state, the `key` it writes is the one from the create
response; Read never reassigns `key` (the refreshed state keeps the prior
state's value); and the post-update re-read never reassigns `key` (the
state written by Update keeps the planned value untouched). -/
theorem C5_plaintext_key_write_once :
    (∀ plan res now s', (keyCreate plan res now).state = some s' →
       ∃ d, res = .ok d ∧ s'.key = .value d.key) ∧
    (∀ state res o s', keyRead state res = .ok o → o.state = some s' →
       s'.key = state.key) ∧
    (∀ state plan u g now s', (keyUpdate state plan u g now).state = some s' →
       s'.key = plan.key) := by
  refine ⟨?_, ?_, ?_⟩
  · intro plan res now s' h
    unfold keyCreate at h
    split at h
    · simp at h
    · split at h
      · simp at h
      · next data =>
        simp only [Option.some.injEq] at h
        exact ⟨data, rfl, by rw [← h]⟩
  · intro state res o s' h1 h2
    unfold keyRead at h1
    split at h1
    · simp only [Except.ok.injEq] at h1
      rw [← h1] at h2
      simp at h2
    · split at h1
      · exact absurd h1 (by simp)
      · simp only [Except.ok.injEq] at h1
        rw [← h1] at h2
        simp only [Option.some.injEq] at h2
        rw [← h2]
        rfl
  · intro state plan u g now s' h
    unfold keyUpdate at h
    split at h
    · simp at h
    · split at h
      · simp at h
      · split at h
        · simp at h
        · simp only [Option.some.injEq] at h
          rw [← h]
          rfl

/-- C5 witness: the Update branch applied at concrete inputs. -/
theorem C5_plaintext_key_write_once_witness :
    (keyUpdate emptyKeyModel emptyKeyModel (.ok ()) (.ok dummyKeyData) "t").state =
      some (keyUpdateWriteBack emptyKeyModel dummyKeyData "t") ∧
    (keyUpdateWriteBack emptyKeyModel dummyKeyData "t").key = emptyKeyModel.key :=
  ⟨rfl, C5_plaintext_key_write_once.2.2 emptyKeyModel emptyKeyModel (.ok ())
     (.ok dummyKeyData) "t" (keyUpdateWriteBack emptyKeyModel dummyKeyData "t") rfl⟩

/-! ## Claim C6 -/

/-- C6: when the planned `roles` differs from stored state and is null or
an empty list, the Key update request carries an explicit empty roles
list (present with zero elements), not an omitted field; likewise for
`permissions`. -/
theorem C6_clear_roles_sends_explicit_empty_list :
    ∀ state plan r, keyUpdateRequest state plan = .ok r →
      (plan.roles ≠ state.roles →
        (plan.roles = .null ∨ plan.roles = .value []) →
        r.roles = some []) ∧
      (plan.permissions ≠ state.permissions →
        (plan.permissions = .null ∨ plan.permissions = .value []) →
        r.permissions = some []) := by
  intro state plan r h
  unfold keyUpdateRequest at h
  split at h
  · exact absurd h (by simp)
  · simp only [Except.ok.injEq] at h
    subst h
    constructor
    · intro hne hcase
      simp only [if_pos hne]
      rcases hcase with h0 | h0 <;> rw [h0]
    · intro hne hcase
      simp only [if_pos hne]
      rcases hcase with h0 | h0 <;> rw [h0]

/-- C6 witness: clearing roles `["admin"] → []` and permissions
`["read.documents"] → null` at concrete inputs. -/
theorem C6_clear_roles_witness :
    (keyUpdateRequest
        { emptyKeyModel with roles := .value ["admin"],
                             permissions := .value ["read.documents"] }
        { emptyKeyModel with roles := .value [], permissions := .null }).isOk ∧
    ∀ r, keyUpdateRequest
        { emptyKeyModel with roles := .value ["admin"],
                             permissions := .value ["read.documents"] }
        { emptyKeyModel with roles := .value [], permissions := .null } = .ok r →
      r.roles = some [] ∧ r.permissions = some [] := by
  refine ⟨by rfl, ?_⟩
  intro r h
  have hc := C6_clear_roles_sends_explicit_empty_list _ _ r h
  exact ⟨hc.1 (by decide) (Or.inr rfl), hc.2 (by decide) (Or.inl rfl)⟩

/-! ## Claim C10 -/

/-- C10: `keyResource.Read` aborts with a nil dereference exactly when the
response name is absent; whenever the name is present it completes
normally for every combination of the other optional response fields
(which are all nil-guarded). -/
theorem C10_key_read_name_precondition :
    (∀ state d, d.name = none → keyRead state (.ok d) = .error .nilDeref) ∧
    (∀ state d nm, d.name = some nm →
       keyRead state (.ok d) =
         .ok ⟨[], some (keyReadRefresh state d nm), [.getKey]⟩) := by
  constructor
  · intro state d h
    simp [keyRead, h]
  · intro state d nm h
    simp [keyRead, h]

/-! ## JSON round-trip development (for claim C7)

The parser inverts the serializer: first the token-level lemmas, then the
mutual induction over `Json`, then idempotence of the canonical form. -/

theorem expectChars_append (ps rest : List Char) :
    expectChars ps (ps ++ rest) = some rest := by
  induction ps with
  | nil => rfl
  | cons p ps ih => simp [expectChars, ih]

theorem parseStringBody_escStr (cs rest : List Char) :
    parseStringBody (escStr cs ++ '"' :: rest) = some (cs, rest) := by
  induction cs with
  | nil =>
    unfold escStr
    rw [List.nil_append]
    unfold parseStringBody
    simp
  | cons c cs ih =>
    by_cases h : c = '"' ∨ c = '\\'
    · simp [escStr, escChar, h, parseStringBody, ih]
    · push_neg at h
      obtain ⟨h1, h2⟩ := h
      simp only [escStr, escChar, h1, h2, or_self, if_false, List.cons_append,
                 List.nil_append]
      unfold parseStringBody
      simp [h1, h2, ih]

theorem digitChar_toNat : ∀ d < 10, (Nat.digitChar d).toNat = 48 + d := by
  decide

theorem digitChar_isDigit : ∀ d < 10, (Nat.digitChar d).isDigit = true := by
  decide

theorem natChars_ne_nil (n : Nat) : natChars n ≠ [] := by
  unfold natChars
  split
  · simp
  · next h =>
    simp [Nat.digits_ne_nil_iff_ne_zero.mpr h]

theorem natChars_all_digits (n : Nat) : ∀ c ∈ natChars n, c.isDigit = true := by
  intro c hc
  unfold natChars at hc
  split at hc
  · simp at hc
    rw [hc]
    rfl
  · simp only [List.mem_reverse, List.mem_map] at hc
    obtain ⟨d, hd, rfl⟩ := hc
    exact digitChar_isDigit d (Nat.digits_lt_base (by norm_num) hd)

theorem digitsVal_aux (L : List Nat) (acc : Nat) (h : ∀ d ∈ L, d < 10) :
    List.foldl (fun a c => 10 * a + (c.toNat - 48)) acc
        ((L.map Nat.digitChar).reverse) =
      acc * 10 ^ L.length + Nat.ofDigits 10 L := by
  induction L generalizing acc with
  | nil => simp [Nat.ofDigits]
  | cons d L ih =>
    have hd : d < 10 := h d (List.mem_cons_self d L)
    have hrest : ∀ x ∈ L, x < 10 := fun x hx => h x (List.mem_cons_of_mem d hx)
    simp only [List.map_cons, List.reverse_cons, List.foldl_append, List.foldl_cons,
               List.foldl_nil, ih acc hrest, digitChar_toNat d hd,
               Nat.ofDigits_cons, List.length_cons]
    ring_nf
    omega

theorem digitsVal_natChars (n : Nat) : digitsVal (natChars n) = n := by
  unfold natChars
  split
  · next h =>
    subst h
    decide
  · have hlt : ∀ d ∈ Nat.digits 10 n, d < 10 :=
      fun d hd => Nat.digits_lt_base (by norm_num) hd
    unfold digitsVal
    rw [digitsVal_aux _ 0 hlt, Nat.ofDigits_digits]
    omega

theorem takeWhile_digits_append (l1 l2 : List Char)
    (h1 : ∀ c ∈ l1, c.isDigit = true) (h2 : headNotDigit l2) :
    (l1 ++ l2).takeWhile Char.isDigit = l1 ∧
    (l1 ++ l2).dropWhile Char.isDigit = l2 := by
  induction l1 with
  | nil =>
    cases l2 with
    | nil => simp
    | cons c t =>
      have hc := h2 c rfl
      simp [List.takeWhile, List.dropWhile, hc]
  | cons c t ih =>
    have hc := h1 c (List.mem_cons_self c t)
    have iht := ih (fun x hx => h1 x (List.mem_cons_of_mem c hx))
    simp [List.takeWhile, List.dropWhile, hc, iht.1, iht.2]

theorem parseNat_natChars (n : Nat) (rest : List Char) (h : headNotDigit rest) :
    parseNat (natChars n ++ rest) = some (n, rest) := by
  obtain ⟨htake, hdrop⟩ :=
    takeWhile_digits_append (natChars n) rest (natChars_all_digits n) h
  have hne : (natChars n).isEmpty = false := by
    cases hh : natChars n with
    | nil => exact absurd hh (natChars_ne_nil n)
    | cons _ _ => rfl
  unfold parseNat
  rw [htake, hdrop]
  simp [hne, digitsVal_natChars]

theorem isDigit_ne_minus {c : Char} (h : c.isDigit = true) : c ≠ '-' := by
  intro hc
  rw [hc] at h
  simp [Char.isDigit] at h

theorem parseNumber_intChars (n : Int) (rest : List Char) (h : headNotDigit rest) :
    parseNumber (intChars n ++ rest) = some (n, rest) := by
  by_cases hn : n < 0
  · unfold intChars
    rw [if_pos hn]
    unfold parseNumber
    simp only [List.cons_append, List.head?_cons, List.tail_cons]
    rw [if_pos trivial, parseNat_natChars n.natAbs rest h]
    simp only [Option.map_some', Option.some.injEq, Prod.mk.injEq, and_true]
    omega
  · unfold intChars
    rw [if_neg hn]
    obtain ⟨c, cs, hcons⟩ := List.exists_cons_of_ne_nil (natChars_ne_nil n.natAbs)
    have hcd : c.isDigit = true := by
      apply natChars_all_digits n.natAbs
      rw [hcons]
      exact List.mem_cons_self c cs
    have hform : natChars n.natAbs ++ rest = c :: (cs ++ rest) := by
      rw [hcons]
      rfl
    unfold parseNumber
    rw [hform]
    simp only [List.head?_cons]
    rw [if_neg (by simpa using isDigit_ne_minus hcd)]
    rw [← hform, parseNat_natChars n.natAbs rest h]
    simp only [Option.map_some', Option.some.injEq, Prod.mk.injEq, and_true]
    omega

theorem intChars_head (n : Int) :
    ∃ c cs, intChars n = c :: cs ∧ (c.isDigit = true ∨ c = '-') := by
  unfold intChars
  by_cases hn : n < 0
  · exact ⟨'-', natChars n.natAbs, by rw [if_pos hn], Or.inr rfl⟩
  · obtain ⟨c, cs, hcons⟩ := List.exists_cons_of_ne_nil (natChars_ne_nil n.natAbs)
    refine ⟨c, cs, by rw [if_neg hn, hcons], Or.inl ?_⟩
    apply natChars_all_digits n.natAbs
    rw [hcons]
    exact List.mem_cons_self c cs

theorem serJson_ne_nil (v : Json) : serJson v ≠ [] := by
  cases v with
  | str s => simp [serJson]
  | num n =>
    obtain ⟨c, cs, hic, _⟩ := intChars_head n
    simp [serJson, hic]
  | bool b => cases b <;> simp [serJson]
  | null => simp [serJson]
  | arr es => simp [serJson]
  | obj fs => simp [serJson]

theorem serJson_head_ne_rbracket (v : Json) (c : Char)
    (hc : (serJson v).head? = some c) : c ≠ ']' := by
  cases v with
  | str s =>
    simp [serJson] at hc
    subst hc
    decide
  | num n =>
    obtain ⟨c0, cs0, hic, hd⟩ := intChars_head n
    rw [serJson, hic] at hc
    simp at hc
    subst hc
    rcases hd with hd | hd
    · intro hh
      rw [hh] at hd
      simp [Char.isDigit] at hd
    · rw [hd]
      decide
  | bool b =>
    cases b <;> simp [serJson] at hc <;> subst hc <;> decide
  | null =>
    simp [serJson] at hc
    subst hc
    decide
  | arr es =>
    simp [serJson] at hc
    subst hc
    decide
  | obj fs =>
    simp [serJson] at hc
    subst hc
    decide

theorem serElems_cons_eq (e : Json) (es : List Json) :
    ∃ t, serElems (e :: es) = serJson e ++ t := by
  cases es with
  | nil => exact ⟨[], by simp [serElems]⟩
  | cons e2 es2 => exact ⟨',' :: serElems (e2 :: es2), by simp [serElems]⟩

theorem serFields_cons_head (k : String) (v : Json) (fs : List (String × Json)) :
    ∃ t, serFields ((k, v) :: fs) = '"' :: t := by
  cases fs with
  | nil => exact ⟨escStr k.data ++ '"' :: ':' :: serJson v, by simp [serFields]⟩
  | cons f2 fs2 =>
    exact ⟨escStr k.data ++ '"' :: ':' :: (serJson v ++ ',' :: serFields (f2 :: fs2)),
           by simp [serFields]⟩

theorem pfuel_pos (v : Json) : 1 ≤ pfuel v := by
  cases v <;> simp [pfuel]

theorem pfuelElems_pos (es : List Json) : 1 ≤ pfuelElems es := by
  cases es <;> simp [pfuelElems]

theorem pfuelFields_pos (fs : List (String × Json)) : 1 ≤ pfuelFields fs := by
  cases fs with
  | nil => simp [pfuelFields]
  | cons f fs => obtain ⟨k, v⟩ := f; simp [pfuelFields]

/-- One-step reduction of `parseValue` on a cons cell. -/
theorem parseValue_cons (fuel : Nat) (c : Char) (t : List Char) :
    parseValue (fuel + 1) (c :: t) =
      if c.isDigit ∨ c = '-' then
        (parseNumber (c :: t)).map (fun p => (Json.num p.1, p.2))
      else if c = '"' then
        (parseStringBody t).map (fun p => (Json.str ⟨p.1⟩, p.2))
      else if c = 't' then
        (expectChars ['r', 'u', 'e'] t).map (fun r => (Json.bool true, r))
      else if c = 'f' then
        (expectChars ['a', 'l', 's', 'e'] t).map (fun r => (Json.bool false, r))
      else if c = 'n' then
        (expectChars ['u', 'l', 'l'] t).map (fun r => (Json.null, r))
      else if c = '[' then
        if t.head? = some ']' then some (Json.arr [], t.tail)
        else (parseElems fuel t).map (fun p => (Json.arr p.1, p.2))
      else if c = '{' then
        if t.head? = some '}' then some (Json.obj [], t.tail)
        else (parseFields fuel t).map (fun p => (Json.obj p.1, p.2))
      else none := rfl

/-- One-step reduction of `parseElems`. -/
theorem parseElems_succ (fuel : Nat) (input : List Char) :
    parseElems (fuel + 1) input =
      match parseValue fuel input with
      | none => none
      | some (v, rest) =>
        if rest.head? = some ',' then
          (parseElems fuel rest.tail).map (fun p => (v :: p.1, p.2))
        else if rest.head? = some ']' then some ([v], rest.tail)
        else none := rfl

/-- One-step reduction of `parseFields` on an opening quote. -/
theorem parseFields_quote (fuel : Nat) (t : List Char) :
    parseFields (fuel + 1) ('"' :: t) =
      match parseStringBody t with
      | none => none
      | some (k, rest1) =>
        if rest1.head? = some ':' then
          match parseValue fuel rest1.tail with
          | none => none
          | some (v, rest2) =>
            if rest2.head? = some ',' then
              (parseFields fuel rest2.tail).map (fun p => ((⟨k⟩, v) :: p.1, p.2))
            else if rest2.head? = some '}' then some ([(⟨k⟩, v)], rest2.tail)
            else none
        else none := rfl

theorem head_cons_eq (c : Char) (t : List Char) : (c :: t).head? = some c := rfl

theorem head_cons_ne {c c' : Char} (h : c ≠ c') (t : List Char) :
    ¬ (c :: t).head? = some c' := fun hh => h (Option.some.inj hh)

/-- Cascaded reduction of `parseElems` once the first element is parsed. -/
theorem parseElems_succ_ok (fuel : Nat) (input : List Char) (v : Json)
    (r : List Char) (h : parseValue fuel input = some (v, r)) :
    parseElems (fuel + 1) input =
      if r.head? = some ',' then
        (parseElems fuel r.tail).map (fun p => (v :: p.1, p.2))
      else if r.head? = some ']' then some ([v], r.tail)
      else none := by
  rw [parseElems_succ, h]

/-- Cascaded reduction of `parseFields` once the key and the value of the
first field are parsed. -/
theorem parseFields_step (fuel : Nat) (t k0 r1 : List Char) (v : Json)
    (rest2 : List Char) (h1 : parseStringBody t = some (k0, r1))
    (h2 : r1.head? = some ':')
    (h3 : parseValue fuel r1.tail = some (v, rest2)) :
    parseFields (fuel + 1) ('"' :: t) =
      if rest2.head? = some ',' then
        (parseFields fuel rest2.tail).map (fun p => ((⟨k0⟩, v) :: p.1, p.2))
      else if rest2.head? = some '}' then some ([(⟨k0⟩, v)], rest2.tail)
      else none := by
  rw [parseFields_quote, h1]
  dsimp only
  rw [if_pos h2, h3]

mutual

/-- The parser inverts the serializer on any JSON value, for any
continuation that does not begin with a digit. -/
theorem parseValue_serJson (v : Json) (fuel : Nat) (rest : List Char)
    (hfuel : pfuel v ≤ fuel) (hrest : headNotDigit rest) :
    parseValue fuel (serJson v ++ rest) = some (v, rest) := by
  cases v with
  | str s =>
    cases fuel with
    | zero => have := pfuel_pos (Json.str s); omega
    | succ f =>
      have hser : serJson (Json.str s) ++ rest =
          '"' :: (escStr s.data ++ '"' :: rest) := by
        simp [serJson]
      rw [hser, parseValue_cons, if_neg (by decide), if_pos rfl,
          parseStringBody_escStr]
      rfl
  | num n =>
    cases fuel with
    | zero => have := pfuel_pos (Json.num n); omega
    | succ f =>
      obtain ⟨c0, cs0, hic, hd⟩ := intChars_head n
      have hser : serJson (Json.num n) ++ rest = c0 :: (cs0 ++ rest) := by
        simp only [serJson, hic, List.cons_append]
      have hback : c0 :: (cs0 ++ rest) = intChars n ++ rest := by
        rw [hic]
        rfl
      rw [hser, parseValue_cons, if_pos hd, hback,
          parseNumber_intChars n rest hrest]
      rfl
  | bool b =>
    cases fuel with
    | zero => have := pfuel_pos (Json.bool b); omega
    | succ f =>
      cases b with
      | true =>
        have hser : serJson (Json.bool true) ++ rest =
            't' :: ('r' :: 'u' :: 'e' :: rest) := by
          simp [serJson]
        rw [hser, parseValue_cons, if_neg (by decide), if_neg (by decide),
            if_pos rfl,
            show ('r' :: 'u' :: 'e' :: rest) = ['r', 'u', 'e'] ++ rest from rfl,
            expectChars_append]
        rfl
      | false =>
        have hser : serJson (Json.bool false) ++ rest =
            'f' :: ('a' :: 'l' :: 's' :: 'e' :: rest) := by
          simp [serJson]
        rw [hser, parseValue_cons, if_neg (by decide), if_neg (by decide),
            if_neg (by decide), if_pos rfl,
            show ('a' :: 'l' :: 's' :: 'e' :: rest) = ['a', 'l', 's', 'e'] ++ rest
              from rfl,
            expectChars_append]
        rfl
  | null =>
    cases fuel with
    | zero => have := pfuel_pos Json.null; omega
    | succ f =>
      have hser : serJson Json.null ++ rest = 'n' :: ('u' :: 'l' :: 'l' :: rest) := by
        simp [serJson]
      rw [hser, parseValue_cons, if_neg (by decide), if_neg (by decide),
          if_neg (by decide), if_neg (by decide), if_pos rfl,
          show ('u' :: 'l' :: 'l' :: rest) = ['u', 'l', 'l'] ++ rest from rfl,
          expectChars_append]
      rfl
  | arr es =>
    cases fuel with
    | zero => have := pfuel_pos (Json.arr es); omega
    | succ f =>
      cases es with
      | nil =>
        have hser : serJson (Json.arr []) ++ rest = '[' :: (']' :: rest) := by
          simp [serJson, serElems]
        rw [hser, parseValue_cons, if_neg (by decide), if_neg (by decide),
            if_neg (by decide), if_neg (by decide), if_neg (by decide),
            if_pos rfl, if_pos (head_cons_eq ']' rest)]
        rfl
      | cons e es' =>
        have hfe : pfuelElems (e :: es') ≤ f := by
          simp only [pfuel] at hfuel
          omega
        have hser : serJson (Json.arr (e :: es')) ++ rest =
            '[' :: (serElems (e :: es') ++ ']' :: rest) := by
          simp [serJson]
        obtain ⟨t0, ht0⟩ := serElems_cons_eq e es'
        obtain ⟨c1, t1, hc1⟩ := List.exists_cons_of_ne_nil (serJson_ne_nil e)
        have hc1head : (serJson e).head? = some c1 := by
          rw [hc1]
          rfl
        have hne1 := serJson_head_ne_rbracket e c1 hc1head
        have hhead : ¬ (serElems (e :: es') ++ ']' :: rest).head? = some ']' := by
          rw [ht0, hc1]
          simp only [List.cons_append, List.head?_cons, Option.some.injEq]
          exact hne1
        rw [hser, parseValue_cons, if_neg (by decide), if_neg (by decide),
            if_neg (by decide), if_neg (by decide), if_neg (by decide),
            if_pos rfl, if_neg hhead,
            parseElems_serElems (e :: es') f rest (by simp) hfe]
        rfl
  | obj fs =>
    cases fuel with
    | zero => have := pfuel_pos (Json.obj fs); omega
    | succ f =>
      cases fs with
      | nil =>
        have hser : serJson (Json.obj []) ++ rest = '{' :: ('}' :: rest) := by
          simp [serJson, serFields]
        rw [hser, parseValue_cons, if_neg (by decide), if_neg (by decide),
            if_neg (by decide), if_neg (by decide), if_neg (by decide),
            if_neg (by decide), if_pos rfl, if_pos (head_cons_eq '}' rest)]
        rfl
      | cons f0 fs' =>
        obtain ⟨k0, v0⟩ := f0
        have hff : pfuelFields ((k0, v0) :: fs') ≤ f := by
          simp only [pfuel] at hfuel
          omega
        have hser : serJson (Json.obj ((k0, v0) :: fs')) ++ rest =
            '{' :: (serFields ((k0, v0) :: fs') ++ '}' :: rest) := by
          simp [serJson]
        obtain ⟨t0, ht0⟩ := serFields_cons_head k0 v0 fs'
        have hhead : ¬ (serFields ((k0, v0) :: fs') ++ '}' :: rest).head? =
            some '}' := by
          rw [ht0]
          simp only [List.cons_append, List.head?_cons, Option.some.injEq]
          decide
        rw [hser, parseValue_cons, if_neg (by decide), if_neg (by decide),
            if_neg (by decide), if_neg (by decide), if_neg (by decide),
            if_neg (by decide), if_pos rfl, if_neg hhead,
            parseFields_serFields ((k0, v0) :: fs') f rest (by simp) hff]
        rfl

/-- The element parser inverts the element serializer on a nonempty list,
with the closing bracket as terminator. -/
theorem parseElems_serElems (es : List Json) (fuel : Nat) (rest : List Char)
    (hne : es ≠ []) (hfuel : pfuelElems es ≤ fuel) :
    parseElems fuel (serElems es ++ ']' :: rest) = some (es, rest) := by
  cases es with
  | nil => exact absurd rfl hne
  | cons e es' =>
    cases fuel with
    | zero => have := pfuelElems_pos (e :: es'); omega
    | succ f =>
      cases es' with
      | nil =>
        have hf1 : pfuel e ≤ f := by
          simp only [pfuelElems] at hfuel
          omega
        have hser : serElems [e] ++ ']' :: rest = serJson e ++ ']' :: rest := by
          simp [serElems]
        have hnd : headNotDigit (']' :: rest) := by
          intro c hc
          simp only [List.head?_cons, Option.some.injEq] at hc
          subst hc
          rfl
        rw [hser, parseElems_succ_ok f _ e (']' :: rest)
              (parseValue_serJson e f (']' :: rest) hf1 hnd),
            if_neg (head_cons_ne (by decide) rest), if_pos (head_cons_eq ']' rest)]
        rfl
      | cons e2 es2 =>
        have hf1 : pfuel e ≤ f := by
          simp only [pfuelElems] at hfuel
          omega
        have hf2 : pfuelElems (e2 :: es2) ≤ f := by
          simp only [pfuelElems] at hfuel ⊢
          omega
        have hser : serElems (e :: e2 :: es2) ++ ']' :: rest =
            serJson e ++ (',' :: (serElems (e2 :: es2) ++ ']' :: rest)) := by
          simp [serElems]
        have hnd : headNotDigit (',' :: (serElems (e2 :: es2) ++ ']' :: rest)) := by
          intro c hc
          simp only [List.head?_cons, Option.some.injEq] at hc
          subst hc
          rfl
        rw [hser, parseElems_succ_ok f _ e _
              (parseValue_serJson e f _ hf1 hnd),
            if_pos (head_cons_eq ',' (serElems (e2 :: es2) ++ ']' :: rest)),
            List.tail_cons,
            parseElems_serElems (e2 :: es2) f rest (by simp) hf2]
        rfl

/-- The field parser inverts the field serializer on a nonempty list,
with the closing brace as terminator. -/
theorem parseFields_serFields (fs : List (String × Json)) (fuel : Nat)
    (rest : List Char) (hne : fs ≠ []) (hfuel : pfuelFields fs ≤ fuel) :
    parseFields fuel (serFields fs ++ '}' :: rest) = some (fs, rest) := by
  cases fs with
  | nil => exact absurd rfl hne
  | cons f0 fs' =>
    obtain ⟨k0, v0⟩ := f0
    cases fuel with
    | zero => have := pfuelFields_pos ((k0, v0) :: fs'); omega
    | succ f =>
      cases fs' with
      | nil =>
        have hf1 : pfuel v0 ≤ f := by
          simp only [pfuelFields] at hfuel
          omega
        have hser : serFields [(k0, v0)] ++ '}' :: rest =
            '"' :: (escStr k0.data ++ '"' :: (':' :: (serJson v0 ++ '}' :: rest))) := by
          simp [serFields]
        have hnd : headNotDigit ('}' :: rest) := by
          intro c hc
          simp only [List.head?_cons, Option.some.injEq] at hc
          subst hc
          rfl
        rw [hser, parseFields_step f _ k0.data
              (':' :: (serJson v0 ++ '}' :: rest)) v0 ('}' :: rest)
              (parseStringBody_escStr k0.data (':' :: (serJson v0 ++ '}' :: rest)))
              (head_cons_eq ':' (serJson v0 ++ '}' :: rest))
              (parseValue_serJson v0 f ('}' :: rest) hf1 hnd)]
        rw [if_neg (head_cons_ne (by decide) rest), if_pos (head_cons_eq '}' rest)]
        rfl
      | cons f2 fs2 =>
        have hf1 : pfuel v0 ≤ f := by
          simp only [pfuelFields] at hfuel
          omega
        have hf2 : pfuelFields (f2 :: fs2) ≤ f := by
          simp only [pfuelFields] at hfuel ⊢
          omega
        have hser : serFields ((k0, v0) :: f2 :: fs2) ++ '}' :: rest =
            '"' :: (escStr k0.data ++ '"' ::
              (':' :: (serJson v0 ++
                (',' :: (serFields (f2 :: fs2) ++ '}' :: rest))))) := by
          simp [serFields]
        have hnd : headNotDigit (',' :: (serFields (f2 :: fs2) ++ '}' :: rest)) := by
          intro c hc
          simp only [List.head?_cons, Option.some.injEq] at hc
          subst hc
          rfl
        rw [hser, parseFields_step f _ k0.data
              (':' :: (serJson v0 ++ ',' :: (serFields (f2 :: fs2) ++ '}' :: rest)))
              v0 (',' :: (serFields (f2 :: fs2) ++ '}' :: rest))
              (parseStringBody_escStr k0.data
                (':' :: (serJson v0 ++ ',' :: (serFields (f2 :: fs2) ++ '}' :: rest))))
              (head_cons_eq ':'
                (serJson v0 ++ ',' :: (serFields (f2 :: fs2) ++ '}' :: rest)))
              (parseValue_serJson v0 f
                (',' :: (serFields (f2 :: fs2) ++ '}' :: rest)) hf1 hnd),
            if_pos (head_cons_eq ',' (serFields (f2 :: fs2) ++ '}' :: rest)),
            List.tail_cons,
            parseFields_serFields (f2 :: fs2) f rest (by simp) hf2]
        rfl

end

theorem serJson_length_pos (v : Json) : 1 ≤ (serJson v).length := by
  cases h : serJson v with
  | nil => exact absurd h (serJson_ne_nil v)
  | cons c t => simp

mutual

/-- The fuel bound is covered by the serialized length. -/
theorem pfuel_le_serLen (v : Json) : pfuel v ≤ (serJson v).length := by
  cases v with
  | str s => simp [pfuel, serJson]
  | num n =>
    obtain ⟨c, cs, hic, _⟩ := intChars_head n
    simp [pfuel, serJson, hic]
  | bool b => cases b <;> simp [pfuel, serJson]
  | null => simp [pfuel, serJson]
  | arr es =>
    cases es with
    | nil => simp [pfuel, pfuelElems, serJson, serElems]
    | cons e es' =>
      have h1 := pfuelElems_le (e :: es')
      simp only [pfuel, serJson, List.cons_append, List.length_cons,
                 List.length_append, List.length_singleton] at h1 ⊢
      omega
  | obj fs =>
    cases fs with
    | nil => simp [pfuel, pfuelFields, serJson, serFields]
    | cons f0 fs' =>
      have h1 := pfuelFields_le (f0 :: fs')
      simp only [pfuel, serJson, List.cons_append, List.length_cons,
                 List.length_append, List.length_singleton] at h1 ⊢
      omega

/-- Element-list fuel bound. -/
theorem pfuelElems_le (es : List Json) : pfuelElems es ≤ (serElems es).length + 1 := by
  cases es with
  | nil => simp [pfuelElems, serElems]
  | cons e es' =>
    cases es' with
    | nil =>
      have h1 := pfuel_le_serLen e
      have h2 := serJson_length_pos e
      simp only [pfuelElems, serElems] at *
      omega
    | cons e2 es2 =>
      have h1 := pfuel_le_serLen e
      have h2 := serJson_length_pos e
      have h3 := pfuelElems_le (e2 :: es2)
      simp only [pfuelElems, serElems, List.length_append, List.length_cons] at *
      omega

/-- Field-list fuel bound. -/
theorem pfuelFields_le (fs : List (String × Json)) :
    pfuelFields fs ≤ (serFields fs).length + 1 := by
  cases fs with
  | nil => simp [pfuelFields, serFields]
  | cons f0 fs' =>
    obtain ⟨k0, v0⟩ := f0
    cases fs' with
    | nil =>
      have h1 := pfuel_le_serLen v0
      have h2 := serJson_length_pos v0
      simp only [pfuelFields, serFields, List.length_append, List.length_cons] at *
      omega
    | cons f2 fs2 =>
      have h1 := pfuel_le_serLen v0
      have h2 := serJson_length_pos v0
      have h3 := pfuelFields_le (f2 :: fs2)
      simp only [pfuelFields, serFields, List.length_append, List.length_cons] at *
      omega

end

/-- Fields whose values are already canonical are untouched. -/
theorem canonFields_of_fixed (L : List (String × Json))
    (h : ∀ p ∈ L, canon p.2 = p.2) : canonFields L = L := by
  induction L with
  | nil => rfl
  | cons p L ih =>
    obtain ⟨k, v⟩ := p
    have hv := h (k, v) (List.mem_cons_self _ _)
    simp only [canonFields, ih (fun q hq => h q (List.mem_cons_of_mem _ hq))]
    simp only at hv
    rw [hv]

/-- Elements that are already canonical are untouched. -/
theorem canonElems_of_fixed (L : List Json)
    (h : ∀ e ∈ L, canon e = e) : canonElems L = L := by
  induction L with
  | nil => rfl
  | cons e L ih =>
    simp only [canonElems, ih (fun q hq => h q (List.mem_cons_of_mem _ hq)),
               h e (List.mem_cons_self _ _)]

mutual

/-- The canonical form is idempotent. -/
theorem canon_idem (v : Json) : canon (canon v) = canon v := by
  cases v with
  | str s => rfl
  | num n => rfl
  | bool b => rfl
  | null => rfl
  | arr es =>
    simp only [canon]
    rw [canonElems_of_fixed _ (fun e he => canonElems_canon_fixed es e he)]
  | obj fs =>
    simp only [canon]
    rw [canonFields_of_fixed _
          (fun p hp => canonFields_canon_fixed fs p ((List.mem_insertionSort keyLE).mp hp)),
        List.Sorted.insertionSort_eq (List.sorted_insertionSort keyLE _)]

/-- Every element of `canonElems es` is canonical. -/
theorem canonElems_canon_fixed (es : List Json) (e : Json)
    (he : e ∈ canonElems es) : canon e = e := by
  cases es with
  | nil => simp [canonElems] at he
  | cons e0 es' =>
    simp only [canonElems, List.mem_cons] at he
    rcases he with rfl | he
    · exact canon_idem e0
    · exact canonElems_canon_fixed es' e he

/-- Every value of `canonFields fs` is canonical. -/
theorem canonFields_canon_fixed (fs : List (String × Json)) (p : String × Json)
    (hp : p ∈ canonFields fs) : canon p.2 = p.2 := by
  cases fs with
  | nil => simp [canonFields] at hp
  | cons f0 fs' =>
    obtain ⟨k0, v0⟩ := f0
    simp only [canonFields, List.mem_cons] at hp
    rcases hp with rfl | hp
    · exact canon_idem v0
    · exact canonFields_canon_fixed fs' p hp

end

/-- Length is preserved by canonicalizing fields. -/
theorem canonFields_length (fs : List (String × Json)) :
    (canonFields fs).length = fs.length := by
  induction fs with
  | nil => rfl
  | cons p fs ih =>
    obtain ⟨k, v⟩ := p
    simp [canonFields, ih]

/-- Go's unmarshal inverts Go's marshal, yielding the key-sorted
canonical fields. -/
theorem goUnmarshalMap_goMarshal (m : List (String × Json)) :
    goUnmarshalMap (goMarshal m) =
      .ok (some (List.insertionSort keyLE (canonFields m))) := by
  have hobj : canon (Json.obj m) =
      Json.obj (List.insertionSort keyLE (canonFields m)) := by
    simp only [canon]
  have hfuel : pfuel (canon (Json.obj m)) ≤ (goMarshal m).length + 1 := by
    have h1 := pfuel_le_serLen (canon (Json.obj m))
    have h2 : (goMarshal m).length = (serJson (canon (Json.obj m))).length := rfl
    omega
  have hnd : headNotDigit ([] : List Char) := by
    intro c hc
    simp at hc
  have hparse := parseValue_serJson (canon (Json.obj m))
    ((goMarshal m).length + 1) [] hfuel hnd
  rw [List.append_nil, hobj] at hparse
  unfold goUnmarshalMap
  rw [show (goMarshal m).data = serJson (Json.obj (List.insertionSort keyLE (canonFields m)))
        from by rw [show goMarshal m = ⟨serJson (canon (Json.obj m))⟩ from rfl, hobj],
      hparse]

/-- Marshalling the parsed-back (sorted, canonical) fields gives the same
string as marshalling the original map. -/
theorem goMarshal_sorted_canon (m : List (String × Json)) :
    goMarshal (List.insertionSort keyLE (canonFields m)) = goMarshal m := by
  unfold goMarshal
  have hfix : canonFields (List.insertionSort keyLE (canonFields m)) =
      List.insertionSort keyLE (canonFields m) :=
    canonFields_of_fixed _
      (fun p hp => canonFields_canon_fixed m p ((List.mem_insertionSort keyLE).mp hp))
  have : canon (Json.obj (List.insertionSort keyLE (canonFields m))) =
      canon (Json.obj m) := by
    simp only [canon, hfix,
               List.Sorted.insertionSort_eq (List.sorted_insertionSort keyLE _)]
  rw [this]

/-! ## Claim C7 -/

/-- C7: serializing a metadata map, decoding it back, and serializing the
decoded map again yields exactly the first serialized string; the empty
(or nil) map serializes to the null string, never to a textual empty
object. -/
theorem C7_metadata_round_trip :
    (∀ m : List (String × Json),
       (MapToString (((StringToMap (MapToString m).1).1).getD [])).1 =
         (MapToString m).1) ∧
    MapToString [] = (TFVal.null, []) := by
  refine ⟨?_, rfl⟩
  intro m
  cases m with
  | nil => rfl
  | cons p ps =>
    have hne : ((p :: ps) : List (String × Json)).isEmpty = false := rfl
    have h1 : (MapToString (p :: ps)).1 = .value (goMarshal (p :: ps)) := by
      simp [MapToString]
    have hsortedne :
        (List.insertionSort keyLE (canonFields (p :: ps))).isEmpty = false := by
      have hlen : (List.insertionSort keyLE (canonFields (p :: ps))).length =
          (p :: ps).length := by
        rw [List.length_insertionSort, canonFields_length]
      cases hs : List.insertionSort keyLE (canonFields (p :: ps)) with
      | nil => rw [hs] at hlen; simp at hlen
      | cons q qs => rfl
    rw [h1]
    show (MapToString (((StringToMap (.value (goMarshal (p :: ps)))).1).getD [])).1 =
      .value (goMarshal (p :: ps))
    rw [show (StringToMap (.value (goMarshal (p :: ps)))).1 =
          some (List.insertionSort keyLE (canonFields (p :: ps))) from by
        simp [StringToMap, goUnmarshalMap_goMarshal]]
    show (MapToString (List.insertionSort keyLE (canonFields (p :: ps)))).1 =
      .value (goMarshal (p :: ps))
    rw [show (MapToString (List.insertionSort keyLE (canonFields (p :: ps)))).1 =
          .value (goMarshal (List.insertionSort keyLE (canonFields (p :: ps)))) from by
        unfold MapToString
        rw [if_neg (by rw [hsortedne]; simp)],
        goMarshal_sorted_canon]

/-! ## Claim C3 -/

/-- A key state whose meta is a set JSON object string. -/
def c3Model : KeyResourceModel :=
  { emptyKeyModel with keyId := .value "k1", meta := .value "\x7b\"a\":1\x7d" }

/-- C3 counterexample: with a plan identical to the stored state (so no
field differs), the Key update request still carries the meta field —
refuting "each updatable field appears in the request iff its planned
value differs from stored state" at this concrete input. -/
theorem C3_counterexample_unchanged_meta_sent :
    keyUpdateRequest c3Model c3Model =
      .ok ⟨"k1", none, none, none, some [("a", Json.num 1)], none, none,
           none, none⟩ ∧
    c3Model.meta = c3Model.meta :=
  ⟨rfl, rfl⟩

/-- C3 amended: in Key Update, name and enabled appear iff changed and
planned non-null, expires iff changed and planned non-null, roles /
permissions / ratelimits iff changed, credits iff changed and the planned
credits object is known — but meta appears iff the planned meta is
non-null and decodes to a JSON object, regardless of the stored state.
On success Key's handler writes every re-read field into the returned
state.  Identity's Update builds its request from the plan alone (the
stored state is never consulted for meta or ratelimits), and after its
re-read only the external id reaches the returned state: the re-read
meta and ratelimits are discarded. -/
theorem C3_amended_update_behavior :
    (∀ state plan r, keyUpdateRequest state plan = .ok r →
       (r.name.isSome = true ↔
          plan.name ≠ state.name ∧ plan.name.isNull = false) ∧
       (r.enabled.isSome = true ↔
          plan.enabled ≠ state.enabled ∧ plan.enabled.isNull = false) ∧
       (r.expires.isSome = true ↔
          plan.expires ≠ state.expires ∧ plan.expires.isNull = false) ∧
       (r.roles.isSome = true ↔ plan.roles ≠ state.roles) ∧
       (r.permissions.isSome = true ↔ plan.permissions ≠ state.permissions) ∧
       (r.ratelimits.isSome = true ↔ plan.ratelimits ≠ state.ratelimits) ∧
       (r.credits.isSome = true ↔
          plan.credits ≠ state.credits ∧ plan.credits.isKnown = true) ∧
       (r.meta.isSome = true ↔ plan.meta.isNull = false ∧
          ∃ ms, goUnmarshalMap plan.meta.valueString = .ok (some ms))) ∧
    (∀ state plan u d now s', (keyUpdate state plan u (.ok d) now).state = some s' →
       s'.name = TFVal.stringPointerValue d.name ∧
       s'.enabled = .value d.enabled ∧
       s'.expires = TFVal.int64PointerValue d.expires ∧
       s'.roles = TFVal.listFromGo d.roles ∧
       s'.permissions = TFVal.listFromGo d.permissions ∧
       s'.credits = CreditsFromAPI d.credits ∧
       s'.ratelimits = (RatelimitsFromAPI d.ratelimits).1) ∧
    (∀ s1 s2 plan,
       (identityUpdateRequest s1 plan).1.meta =
         (identityUpdateRequest s2 plan).1.meta ∧
       (identityUpdateRequest s1 plan).1.ratelimits =
         (identityUpdateRequest s2 plan).1.ratelimits) ∧
    (∀ state plan u d s', (identityUpdate state plan u (.ok d)).state = some s' →
       s'.externalId = .value d.externalId ∧ s'.meta = plan.meta ∧
       s'.ratelimits = plan.ratelimits) := by
  refine ⟨?_, ?_, fun _ _ _ => ⟨rfl, rfl⟩, ?_⟩
  · intro state plan r h
    unfold keyUpdateRequest at h
    split at h
    · exact absurd h (by simp)
    · next metaF hms =>
      simp only [Except.ok.injEq] at h
      subst h
      refine ⟨?_, ?_, ?_, ?_, ?_, ?_, ?_, ?_⟩
      · by_cases hc : plan.name ≠ state.name ∧ ¬plan.name.isNull
        · have h2 : plan.name.isNull = false := by
            simpa [Bool.not_eq_true] using hc.2
          simp [if_pos hc, isSome_valueStringPointer, h2, hc.1]
        · simp only [if_neg hc]
          simp only [Option.isSome_none]
          constructor
          · intro hfalse
            exact absurd hfalse (by simp)
          · intro ⟨h1, h2⟩
            exact absurd ⟨h1, by simp [h2]⟩ hc
      · by_cases hc : plan.enabled ≠ state.enabled ∧ ¬plan.enabled.isNull
        · have h2 : plan.enabled.isNull = false := by
            simpa [Bool.not_eq_true] using hc.2
          simp [if_pos hc, isSome_valueBoolPointer, h2, hc.1]
        · simp only [if_neg hc]
          simp only [Option.isSome_none]
          constructor
          · intro hfalse
            exact absurd hfalse (by simp)
          · intro ⟨h1, h2⟩
            exact absurd ⟨h1, by simp [h2]⟩ hc
      · by_cases hc : plan.expires ≠ state.expires
        · simp only [if_pos hc, isSome_valueInt64Pointer]
          simp [hc, Bool.not_eq_true]
        · simp only [if_neg hc]
          simp only [Option.isSome_none]
          constructor
          · intro hfalse
            exact absurd hfalse (by simp)
          · intro ⟨h1, _⟩
            exact absurd h1 hc
      · by_cases hc : plan.roles ≠ state.roles <;> simp [hc]
      · by_cases hc : plan.permissions ≠ state.permissions <;> simp [hc]
      · by_cases hc : plan.ratelimits ≠ state.ratelimits <;> simp [hc]
      · by_cases hc : plan.credits ≠ state.credits
        · simp only [if_pos hc]
          rcases hcp : plan.credits with _ | _ | v <;>
            rw [hcp] at hc <;> simp [hc, TFVal.isKnown]
        · simp only [if_neg hc]
          simp only [Option.isSome_none]
          constructor
          · intro hfalse
            exact absurd hfalse (by simp)
          · intro ⟨h1, _⟩
            exact absurd h1 hc
      · unfold keyUpdateMetaStep at hms
        split at hms
        · next hnull =>
          simp only [Except.ok.injEq] at hms
          subst hms
          simp [hnull]
        · next hnn =>
          split at hms
          · exact absurd hms (by simp)
          · next m hparse =>
            simp only [Except.ok.injEq] at hms
            subst hms
            cases m with
            | none =>
              simp only [Option.isSome_none]
              constructor
              · intro hfalse
                exact absurd hfalse (by simp)
              · intro ⟨_, ms, hms2⟩
                rw [hparse] at hms2
                simp at hms2
            | some ms =>
              simp only [Option.isSome_some, true_iff]
              exact ⟨by simpa [Bool.not_eq_true] using hnn, ms, hparse⟩
  · intro state plan u d now s' h
    unfold keyUpdate at h
    split at h
    · simp at h
    · split at h
      · simp at h
      · split at h
        · simp at h
        · next d2 hd2 =>
          simp only [Except.ok.injEq] at hd2
          subst hd2
          simp only [Option.some.injEq] at h
          subst h
          exact ⟨rfl, rfl, rfl, rfl, rfl, rfl, rfl⟩
  · intro state plan u d s' h
    unfold identityUpdate at h
    by_cases hb : ((identityUpdateRequest state plan).2).isEmpty = false
    · rw [if_pos hb] at h
      simp at h
    · rw [if_neg hb] at h
      cases u with
      | error e => simp at h
      | ok _ =>
        simp only [Option.some.injEq] at h
        subst h
        exact ⟨rfl, rfl, rfl⟩

/-- C3 amended witness: the roles clause applied at concrete inputs where
only roles changed. -/
theorem C3_amended_update_behavior_witness :
    keyUpdateRequest emptyKeyModel { emptyKeyModel with roles := .value ["admin"] } =
      .ok ⟨"", none, none, none, none, some ["admin"], none, none, none⟩ ∧
    (Option.isSome (some ["admin"] : Option (List String)) = true ↔
      ({ emptyKeyModel with roles := .value ["admin"] } : KeyResourceModel).roles ≠
        emptyKeyModel.roles) :=
  ⟨rfl,
   ((C3_amended_update_behavior.1 emptyKeyModel
       { emptyKeyModel with roles := .value ["admin"] }
       ⟨"", none, none, none, none, some ["admin"], none, none, none⟩
       rfl).2.2.2.1)⟩

/-! ## Claim C9 -/

/-- C9: whenever a remote SDK call fails, the handler appends exactly one
error diagnostic — a human-readable summary plus the underlying error
text — on top of any diagnostics already accumulated, performs no further
SDK call, and writes no state.  One conjunct per failing call site across
all five resources. -/
theorem C9_sdk_error_isolation :
    (∀ plan rq e now, keyCreateRequest plan = .ok rq →
       keyCreate plan (.error e) now =
         ⟨rq.2 ++ [⟨"Error creating API",
                    "Could not create API, unexpected error: " ++ e⟩],
          none, [.createKey]⟩) ∧
    (∀ state e, keyRead state (.error e) =
       .ok ⟨[⟨"Error Reading Unkey Key",
              "Could not read Unkey Key ID " ++ state.keyId.valueString ++ ": " ++ e⟩],
            none, [.getKey]⟩) ∧
    (∀ state plan rq e g now, keyUpdateRequest state plan = .ok rq →
       keyUpdate state plan (.error e) g now =
         ⟨[⟨"Error updating key",
            "Could not update key " ++ state.keyId.valueString ++ ": " ++ e⟩],
          none, [.updateKey]⟩) ∧
    (∀ state plan rq e now, keyUpdateRequest state plan = .ok rq →
       keyUpdate state plan (.ok ()) (.error e) now =
         ⟨[⟨"Error reading updated key",
            "Could not read key after update "
              ++ state.keyId.valueString ++ ": " ++ e⟩],
          none, [.updateKey, .getKey]⟩) ∧
    (∀ state e, keyDelete state (.error e) =
       ⟨[⟨"Error Deleting Unkey Key",
          "Could not delete Key, unexpected error: " ++ e⟩],
        none, [.deleteKey]⟩) ∧
    (∀ plan e, apiCreate plan (.error e) =
       ⟨[⟨"Error creating API", "Could not create API, unexpected error: " ++ e⟩],
        none, [.createApi]⟩) ∧
    (∀ state e, apiRead state (.error e) =
       ⟨[⟨"Error Reading Unkey API",
          "Could not read Unkey API ID " ++ state.apiId.valueString ++ ": " ++ e⟩],
        none, [.getApi]⟩) ∧
    (∀ state e, apiDelete state (.error e) =
       ⟨[⟨"Error Deleting Unkey API",
          "Could not delete API, unexpected error: " ++ e⟩],
        none, [.deleteApi]⟩) ∧
    (∀ plan e, roleCreate plan (.error e) =
       ⟨[⟨"Error creating Role", "Could not create Role, unexpected error: " ++ e⟩],
        none, [.createRole]⟩) ∧
    (∀ state e, roleRead state (.error e) =
       ⟨[⟨"Error Reading Unkey Role",
          "Could not read Unkey Role ID " ++ state.roleId.valueString ++ ": " ++ e⟩],
        none, [.getRole]⟩) ∧
    (∀ state e, roleDelete state (.error e) =
       ⟨[⟨"Error Deleting Unkey Role",
          "Could not delete Role, unexpected error: " ++ e⟩],
        none, [.deleteRole]⟩) ∧
    (∀ plan e, permissionCreate plan (.error e) =
       ⟨[⟨"Error creating Permission",
          "Could not create Permission, unexpected error: " ++ e⟩],
        none, [.createPermission]⟩) ∧
    (∀ state e, permissionRead state (.error e) =
       ⟨[⟨"Error Reading Unkey Permission",
          "Could not read Unkey Permission ID "
            ++ state.permissionId.valueString ++ ": " ++ e⟩],
        none, [.getPermission]⟩) ∧
    (∀ state e, permissionDelete state (.error e) =
       ⟨[⟨"Error Deleting Unkey Permission",
          "Could not delete Permission, unexpected error: " ++ e⟩],
        none, [.deletePermission]⟩) ∧
    (∀ plan e, identityCreate plan (.error e) =
       ⟨(identityCreateRequest plan).2 ++
          [⟨"Error creating API", "Could not create API, unexpected error: " ++ e⟩],
        none, [.createIdentity]⟩) ∧
    (∀ state e, identityRead state (.error e) =
       ⟨[⟨"Error Reading Unkey Identity",
          "Could not read Unkey Identity ID "
            ++ state.identityId.valueString ++ ": " ++ e⟩],
        none, [.getIdentity]⟩) ∧
    (∀ state plan e g, (identityUpdateRequest state plan).2 = [] →
       identityUpdate state plan (.error e) g =
         ⟨[⟨"Error updating identity",
            "Could not update identity "
              ++ state.identityId.valueString ++ ": " ++ e⟩],
          none, [.updateIdentity]⟩) ∧
    (∀ state plan e, (identityUpdateRequest state plan).2 = [] →
       identityUpdate state plan (.ok ()) (.error e) =
         ⟨[⟨"Error reading updated identity",
            "Could not read identity after update "
              ++ state.identityId.valueString ++ ": " ++ e⟩],
          none, [.updateIdentity, .getIdentity]⟩) ∧
    (∀ state e, identityDelete state (.error e) =
       ⟨[⟨"Error Deleting Unkey Identity",
          "Could not delete Identity, unexpected error: " ++ e⟩],
        none, [.deleteIdentity]⟩) := by
  refine ⟨?_, fun _ _ => rfl, ?_, ?_, fun _ _ => rfl, fun _ _ => rfl,
          fun _ _ => rfl, fun _ _ => rfl, fun _ _ => rfl, fun _ _ => rfl,
          fun _ _ => rfl, fun _ _ => rfl, fun _ _ => rfl, fun _ _ => rfl,
          fun _ _ => rfl, fun _ _ => rfl, ?_, ?_, fun _ _ => rfl⟩
  · intro plan rq e now h
    unfold keyCreate
    rw [h]
  · intro state plan rq e g now h
    unfold keyUpdate
    rw [h]
  · intro state plan rq e now h
    unfold keyUpdate
    rw [h]
  · intro state plan e g h
    unfold identityUpdate
    simp [h]
  · intro state plan e h
    unfold identityUpdate
    simp [h]

/-- C9 witness: the Key update-call failure applied at concrete inputs. -/
theorem C9_sdk_error_isolation_witness :
    keyUpdateRequest emptyKeyModel emptyKeyModel =
      .ok ⟨"", none, none, none, none, none, none, none, none⟩ ∧
    keyUpdate emptyKeyModel emptyKeyModel (.error "boom") (.ok dummyKeyData) "t" =
      ⟨[⟨"Error updating key",
         "Could not update key " ++ emptyKeyModel.keyId.valueString ++ ": " ++ "boom"⟩],
       none, [.updateKey]⟩ :=
  ⟨rfl, C9_sdk_error_isolation.2.2.1 emptyKeyModel emptyKeyModel
     ⟨"", none, none, none, none, none, none, none, none⟩ "boom"
     (.ok dummyKeyData) "t" rfl⟩

/-! ## Claim C8 -/

/-- Round trip of a single fully-specified rate-limit entry through the
request conversion, the remote echo, and the response conversion. -/
theorem ratelimit_entry_round_trip (rl : RateLimitModel)
    (h : (rl.name.isKnown && rl.limit.isKnown &&
          rl.duration.isKnown && rl.autoApply.isKnown) = true) :
    ratelimitFromResponse (ratelimitEcho (ratelimitToRequest rl)) = rl := by
  obtain ⟨n, li, du, a⟩ := rl
  cases n <;> cases li <;> cases du <;> cases a <;>
    simp_all [TFVal.isKnown, ratelimitToRequest, ratelimitEcho,
              ratelimitFromResponse, TFVal.valueString, TFVal.valueInt64,
              TFVal.valueBool]

/-- C8: a plan-side rate-limit list of fully-specified entries (each
field a known value, as the schema requires) survives the plan → API →
plan round trip with every field and the element order intact; the empty
or nil response list maps to a null plan-side list, and a null plan-side
list maps to a nil request slice. -/
theorem C8_ratelimits_round_trip :
    (∀ L : List RateLimitModel, L ≠ [] → L.length ≤ 50 →
       (∀ rl ∈ L, (rl.name.isKnown && rl.limit.isKnown &&
                   rl.duration.isKnown && rl.autoApply.isKnown) = true) →
       (RatelimitsFromAPI
          ((((RatelimitsToAPI (.value L)).1).getD []).map ratelimitEcho)).1 =
         .value L) ∧
    (∀ rs : List RatelimitResponse, rs.isEmpty = true →
       (RatelimitsFromAPI rs).1 = .null) ∧
    (RatelimitsToAPI .null).1 = none := by
  refine ⟨?_, ?_, rfl⟩
  · intro L hne _ hknown
    have hmapne : ((L.map ratelimitToRequest).map ratelimitEcho).isEmpty = false := by
      cases L with
      | nil => exact absurd rfl hne
      | cons a as => rfl
    simp only [RatelimitsToAPI, Option.getD_some]
    unfold RatelimitsFromAPI
    rw [hmapne]
    simp only [if_neg Bool.false_ne_true, List.map_map]
    congr 1
    have : ∀ rl ∈ L,
        (ratelimitFromResponse ∘ ratelimitEcho ∘ ratelimitToRequest) rl = id rl :=
      fun rl hrl => ratelimit_entry_round_trip rl (hknown rl hrl)
    rw [List.map_congr_left this, List.map_id]
  · intro rs h
    unfold RatelimitsFromAPI
    rw [h]
    rfl

/-- C8 witness: a concrete one-entry list round-trips, and the empty
response list collapses to null. -/
theorem C8_ratelimits_round_trip_witness :
    ([(⟨.value "api_requests", .value 100, .value 60000, .value true⟩ :
        RateLimitModel)] ≠ []) ∧
    (RatelimitsFromAPI
       ((((RatelimitsToAPI (.value [(⟨.value "api_requests", .value 100,
             .value 60000, .value true⟩ : RateLimitModel)])).1).getD
           []).map ratelimitEcho)).1 =
      .value [⟨.value "api_requests", .value 100, .value 60000, .value true⟩] ∧
    (RatelimitsFromAPI []).1 = .null :=
  ⟨by decide,
   C8_ratelimits_round_trip.1 _ (by decide) (by decide) (by decide),
   C8_ratelimits_round_trip.2.1 [] rfl⟩

/-- C10 witness: a response without a name panics; the same response with
a name completes. -/
theorem C10_key_read_name_precondition_witness :
    keyRead emptyKeyModel (.ok { dummyKeyData with name := none }) =
      .error .nilDeref ∧
    keyRead emptyKeyModel (.ok dummyKeyData) =
      .ok ⟨[], some (keyReadRefresh emptyKeyModel dummyKeyData "k"), [.getKey]⟩ :=
  ⟨C10_key_read_name_precondition.1 emptyKeyModel _ rfl,
   C10_key_read_name_precondition.2 emptyKeyModel dummyKeyData "k" rfl⟩

end UnkeyTF
